import Mathlib

/-!
# Alicloud resource lifecycle controllers

A shallow embedding of three Terraform resources of the Alicloud provider

* `resource_alicloud_brain_industrial_pid_organization.go`
* `resource_alicloud_config_aggregator.go`
* `resource_alicloud_db_read_write_splitting_connection.go`

Every lifecycle function is a pure function from the local resource data and
the state of the remote side to a `Result`.  Go values of type `interface{}`
are `Val`, Go maps are association lists, a failed type assertion is
`Result.panic`.  Everything the three files call but do not define (the
client, the service layer, the error helpers, constants) is a field of `Env`.
-/

set_option autoImplicit false

namespace Alicloud

/-! ## Go values and maps -/

/-- A Go value held in an `interface{}`: `int` is the Go type `int`, `num` is
any other numeric dynamic type (a decoded JSON number), given by its integral
value. -/
inductive Val where
  | null
  | str (s : String)
  | int (n : Int)
  | num (n : Int)
  | bool (b : Bool)
  | list (xs : List Val)
  | obj (kvs : List (String × Val))
  deriving Repr, Inhabited

/-- A Go `map[string]interface{}`. -/
abbrev Obj := List (String × Val)

/-- Map index `m[k]`: `none` is the nil interface of a missing key. -/
def mapGet (m : Obj) (k : String) : Option Val :=
  match m with
  | [] => none
  | (j, v) :: rest => if j = k then some v else mapGet rest k

/-- Builtin `delete(m, k)`. -/
def mapDelete (m : Obj) (k : String) : Obj :=
  match m with
  | [] => []
  | (j, v) :: rest => if j = k then mapDelete rest k else (j, v) :: mapDelete rest k

/-- Map assignment `m[k] = v`. -/
def mapSet (m : Obj) (k : String) (v : Val) : Obj :=
  (k, v) :: mapDelete m k

/-- Map assignment of an `interface{}` that may be nil: a nil value is stored
as `Val.null`. -/
def mapSetI (m : Obj) (k : String) (v : Option Val) : Obj :=
  mapSet m k (v.getD Val.null)

/-- The keys of a map. -/
def mapKeys (m : Obj) : List String := m.map Prod.fst

/-- The comparison `v == s` of an `interface{}` with a string constant: true
only for a string of the same content. -/
def isStr (v : Option Val) (s : String) : Bool :=
  match v with
  | some (Val.str t) => decide (t = s)
  | _ => false

/-- The zero value test behind `GetOk`. -/
def Val.isZero : Val → Bool
  | Val.null => true
  | Val.str s => decide (s = "")
  | Val.int n => decide (n = 0)
  | Val.num n => decide (n = 0)
  | Val.bool b => !b
  | Val.list xs => xs.isEmpty
  | Val.obj kvs => kvs.isEmpty

/-! ## Errors -/

/-- Modelled from the spec: the error values of the provider (`errors.go` is
not among the sources).  `sdk` is an error answered by the API or raised by
the service layer, `timeout` the timeout of a retry or of a poll, `wrap` and
`wrapf` the results of `WrapError` and `WrapErrorf`, which keep the cause and
add the message arguments. -/
inductive GoError where
  | sdk (code : String) (message : String)
  | timeout
  | wrap (cause : GoError)
  | wrapf (cause : GoError) (msg : String) (args : List String)
  deriving DecidableEq, Repr, Inhabited

/-- Modelled from the spec: `WrapError(cause)`, nil for a nil cause. -/
def WrapError (cause : Option GoError) : Option GoError :=
  cause.map GoError.wrap

/-- Modelled from the spec: `WrapErrorf(cause, msg, args...)` for a non-nil
cause. -/
def WrapErrorf (cause : GoError) (msg : String) (args : List String) : GoError :=
  GoError.wrapf cause msg args

/-- The message constant `DefaultErrorMsg`, by name. -/
def DefaultErrorMsg : String := "DefaultErrorMsg"

/-- The message constant `IdMsg`, by name. -/
def IdMsg : String := "IdMsg"

/-- The error source constant `AlibabaCloudSdkGoERROR`, by name. -/
def AlibabaCloudSdkGoERROR : String := "AlibabaCloudSdkGoERROR"

/-- The innermost error of a chain of wrappers. -/
def GoError.rootCause : GoError → GoError
  | GoError.wrap c => c.rootCause
  | GoError.wrapf c _ _ => c.rootCause
  | e => e

/-! ## Local resource data -/

/-- The operation a timeout belongs to (`schema.TimeoutCreate`, ...). -/
inductive TimeoutKey where
  | TimeoutCreate
  | TimeoutRead
  | TimeoutUpdate
  | TimeoutDelete
  deriving DecidableEq, Repr

/-- The part of `*schema.ResourceData` the resources use: the ID, the current
field values, the keys for which `HasChange` holds, `IsNewResource`, and the
configured timeouts in seconds. -/
structure ResourceData where
  id : String
  vals : Obj
  changed : List String
  isNew : Bool
  timeouts : TimeoutKey → Nat

namespace ResourceData

/-- The call `d.Id()`. -/
def Id (d : ResourceData) : String := d.id

/-- The call `d.SetId(v)`. -/
def SetId (d : ResourceData) (v : String) : ResourceData := { d with id := v }

/-- The call `d.Get(k)` on a field of type string. -/
def GetString (d : ResourceData) (k : String) : String :=
  match mapGet d.vals k with
  | some (Val.str s) => s
  | _ => ""

/-- The call `d.Get(k)` on a field of type int. -/
def GetInt (d : ResourceData) (k : String) : Int :=
  match mapGet d.vals k with
  | some (Val.int n) => n
  | _ => 0

/-- The call `d.Get(k)` on a field of type set: the list of its elements. -/
def GetSet (d : ResourceData) (k : String) : List Val :=
  match mapGet d.vals k with
  | some (Val.list xs) => xs
  | _ => []

/-- The call `d.GetOk(k)`: the value when it is set and not the zero value. -/
def GetOk (d : ResourceData) (k : String) : Option Val :=
  match mapGet d.vals k with
  | some v => if v.isZero then none else some v
  | none => none

/-- The call `d.Set(k, v)`, taken to store the value as it is and to return no
error; a nil value clears the field. -/
def Set (d : ResourceData) (k : String) (v : Option Val) : ResourceData :=
  match v with
  | some x => { d with vals := mapSet d.vals k x }
  | none => { d with vals := mapDelete d.vals k }

/-- The call `d.HasChange(k)`. -/
def HasChange (d : ResourceData) (k : String) : Bool := decide (k ∈ d.changed)

/-- The call `d.IsNewResource()`. -/
def IsNewResource (d : ResourceData) : Bool := d.isNew

/-- The call `d.Timeout(key)`, in seconds. -/
def Timeout (d : ResourceData) (key : TimeoutKey) : Nat := d.timeouts key

end ResourceData

/-! ## The remote side -/

/-- A request that left the process. -/
inductive Call where
  | rpc (product version action : String) (request : Obj)
  | describe (service : String) (id : String)
  | wait (service : String) (id : String) (status : String) (timeout : Nat)

/-- The state of the remote side together with the requests sent so far. -/
structure World (ρ : Type) where
  remote : ρ
  log : List Call

/-- What the three files use without defining it: the client handle, the
service layer, the error classification and the constants of the package.
`attempts t` is the number of attempts of a retried call that fit in `t`
seconds. -/
structure Env (ρ : Type) where
  RegionId : String
  SourceIp : String
  NeedRetry : GoError → Bool
  NotFoundError : GoError → Bool
  IsExpectedErrors : GoError → List String → Bool
  OperationDeniedDBStatus : List String
  DBReadInstanceNotReadyStatus : List String
  DefaultLongTimeout : Nat
  DefaultTimeoutMedium : Nat
  Running : String
  Deleted : String
  buildClientToken : String → String
  Trim : String → String
  formatInt : Option Val → Int
  sprintOther : Val → String
  jsonMarshal : Val → Except GoError String
  convertArrayObjectToJsonString : List Obj → Except GoError String
  dbConnectionSuffix : List Char → Bool
  attempts : Nat → Nat
  RpcPost : String → String → String → Obj → Bool → ρ → Except GoError Obj × ρ
  DescribeBrainIndustrialPidOrganization : String → ρ → Except GoError Obj × ρ
  DescribeConfigAggregator : String → ρ → Except GoError Obj × ρ
  DescribeDBReadWriteSplittingConnection : String → ρ → Except GoError Obj × ρ
  WaitForDBReadWriteSplitting : String → String → Nat → ρ → Option GoError × ρ
  WaitForDBInstance : String → String → Nat → ρ → Option GoError × ρ
  ConfigAggregatorWaitForState : String → Nat → ρ → Option GoError × ρ
  RdsDBInstanceWaitForState : String → Nat → ρ → Option GoError × ρ

/-- The outcome of a lifecycle function: a failed type assertion, a returned
error, or a nil return, with the resource data and the world it leaves. -/
inductive Result (ρ : Type) where
  | panic
  | fail (err : GoError) (d : ResourceData) (w : World ρ)
  | ok (d : ResourceData) (w : World ρ)

/-- The result of `fmt.Sprint` on one `interface{}`. -/
def Sprint {ρ : Type} (env : Env ρ) (v : Option Val) : String :=
  match v with
  | none => "<nil>"
  | some Val.null => "<nil>"
  | some (Val.str s) => s
  | some (Val.int n) => toString n
  | some (Val.bool b) => toString b
  | some x => env.sprintOther x

/-- The call `client.RpcPost(product, version, action, nil, request, autoRetry)`. -/
def rpcPost {ρ : Type} (env : Env ρ) (product version action : String) (request : Obj)
    (autoRetry : Bool) (w : World ρ) : Except GoError Obj × World ρ :=
  let r := env.RpcPost product version action request autoRetry w.remote
  (r.1, { remote := r.2, log := w.log ++ [Call.rpc product version action request] })

/-! ## `resource.Retry` -/

/-- The value a retried function returns: `resource.RetryableError(err)` or
`resource.NonRetryableError(err)`. -/
inductive RetryError where
  | RetryableError (err : GoError)
  | NonRetryableError (err : GoError)

/-- The loop of `resource.Retry`: `f` is called until it returns nil or a
non-retryable error; when no further attempt fits, the last error is the
result. -/
def retryLoop {σ : Type} (f : σ → Option RetryError × σ) :
    Nat → GoError → σ → Option GoError × σ
  | 0, last, s => (some last, s)
  | n + 1, _, s =>
    match f s with
    | (none, s1) => (none, s1)
    | (some (RetryError.NonRetryableError e), s1) => (some e, s1)
    | (some (RetryError.RetryableError e), s1) => retryLoop f n e s1

/-- The call `resource.Retry(timeout, f)` with room for `n` attempts; with
room for none the result is the timeout error. -/
def Retry {σ : Type} (n : Nat) (f : σ → Option RetryError × σ) (s : σ) : Option GoError × σ :=
  retryLoop f n GoError.timeout s

/-- One run of the function literal the resources pass to `resource.Retry`:
the `RpcPost` call, then the classification `onError` of its error.  The
state carries the variable `response`. -/
def rpcAttempt {ρ : Type} (env : Env ρ) (product version action : String) (request : Obj)
    (autoRetry : Bool) (onError : GoError → Option RetryError)
    (s : World ρ × Option Obj) : Option RetryError × (World ρ × Option Obj) :=
  match rpcPost env product version action request autoRetry s.1 with
  | (Except.error err, w1) => (onError err, (w1, none))
  | (Except.ok response, w1) => (none, (w1, some response))

/-- The error branch shared by the PID organization and the aggregator:
`if NeedRetry(err) { wait(); return resource.RetryableError(err) }` and
`return resource.NonRetryableError(err)` otherwise. -/
def needRetryOnError {ρ : Type} (env : Env ρ) (err : GoError) : Option RetryError :=
  if env.NeedRetry err then some (RetryError.RetryableError err)
  else some (RetryError.NonRetryableError err)

/-! ## `resource_alicloud_brain_industrial_pid_organization.go` -/

/-- The function `resourceAlicloudBrainIndustrialPidOrganizationRead`. -/
def resourceAlicloudBrainIndustrialPidOrganizationRead {ρ : Type} (env : Env ρ)
    (d : ResourceData) (w : World ρ) : Result ρ :=
  let r := env.DescribeBrainIndustrialPidOrganization d.Id w.remote
  let w1 : World ρ :=
    { remote := r.2, log := w.log ++ [Call.describe "BrainIndustrialPidOrganization" d.Id] }
  match r.1 with
  | Except.error err =>
    if env.NotFoundError err then Result.ok (d.SetId "") w1
    else Result.fail (GoError.wrap err) d w1
  | Except.ok object =>
    Result.ok (d.Set "pid_organization_name" (mapGet object "OrganizationName")) w1

/-- The request map `resourceAlicloudBrainIndustrialPidOrganizationCreate` builds. -/
def pidOrganizationCreateRequest {ρ : Type} (env : Env ρ) (d : ResourceData) : Obj :=
  let request : Obj := []
  let request :=
    match d.GetOk "parent_pid_organization_id" with
    | some v => mapSet request "ParentOrganizationId" v
    | none => request
  let request := mapSet request "OrganizationName" (Val.str (d.GetString "pid_organization_name"))
  mapSet request "ClientToken" (Val.str (env.buildClientToken "CreatePidOrganization"))

/-- The function `resourceAlicloudBrainIndustrialPidOrganizationCreate`. -/
def resourceAlicloudBrainIndustrialPidOrganizationCreate {ρ : Type} (env : Env ρ)
    (d : ResourceData) (w : World ρ) : Result ρ :=
  let action := "CreatePidOrganization"
  let request := pidOrganizationCreateRequest env d
  match Retry (env.attempts (d.Timeout TimeoutKey.TimeoutUpdate))
      (rpcAttempt env "brain-industrial" "2020-09-20" action request true (needRetryOnError env))
      (w, none) with
  | (some err, (w1, _)) =>
    Result.fail (WrapErrorf err DefaultErrorMsg
      ["alicloud_brain_industrial_pid_organization", action, AlibabaCloudSdkGoERROR]) d w1
  | (none, (w1, response)) =>
    let d1 := d.SetId (Sprint env (response.bind (fun m => mapGet m "OrganizationId")))
    resourceAlicloudBrainIndustrialPidOrganizationRead env d1 w1

/-- The request map `resourceAlicloudBrainIndustrialPidOrganizationUpdate` builds. -/
def pidOrganizationUpdateRequest (d : ResourceData) : Obj :=
  let request : Obj := [("OrganizationId", Val.str d.Id)]
  mapSet request "OrganizationName" (Val.str (d.GetString "pid_organization_name"))

/-- The function `resourceAlicloudBrainIndustrialPidOrganizationUpdate`. -/
def resourceAlicloudBrainIndustrialPidOrganizationUpdate {ρ : Type} (env : Env ρ)
    (d : ResourceData) (w : World ρ) : Result ρ :=
  if d.HasChange "pid_organization_name" then
    let request := pidOrganizationUpdateRequest d
    let action := "UpdatePidOrganization"
    match Retry (env.attempts (d.Timeout TimeoutKey.TimeoutUpdate))
        (rpcAttempt env "brain-industrial" "2020-09-20" action request false (needRetryOnError env))
        (w, none) with
    | (some err, (w1, _)) =>
      Result.fail (WrapErrorf err DefaultErrorMsg [d.Id, action, AlibabaCloudSdkGoERROR]) d w1
    | (none, (w1, _)) => resourceAlicloudBrainIndustrialPidOrganizationRead env d w1
  else resourceAlicloudBrainIndustrialPidOrganizationRead env d w

/-- The request map of `resourceAlicloudBrainIndustrialPidOrganizationDelete`. -/
def pidOrganizationDeleteRequest (d : ResourceData) : Obj :=
  [("OrganizationId", Val.str d.Id)]

/-- The function `resourceAlicloudBrainIndustrialPidOrganizationDelete`. -/
def resourceAlicloudBrainIndustrialPidOrganizationDelete {ρ : Type} (env : Env ρ)
    (d : ResourceData) (w : World ρ) : Result ρ :=
  let action := "DeletePidOrganization"
  let request := pidOrganizationDeleteRequest d
  match Retry (env.attempts (d.Timeout TimeoutKey.TimeoutDelete))
      (rpcAttempt env "brain-industrial" "2020-09-20" action request false (needRetryOnError env))
      (w, none) with
  | (some err, (w1, _)) =>
    Result.fail (WrapErrorf err DefaultErrorMsg [d.Id, action, AlibabaCloudSdkGoERROR]) d w1
  | (none, (w1, _)) => Result.ok d w1

/-! ## `resource_alicloud_config_aggregator.go` -/

/-- The function `convertConfigAggregatorStatusResponse`: the `switch` compares
the `interface{}` with the constants `0`, `2`, `1` of type `int`. -/
def convertConfigAggregatorStatusResponse (source : Val) : String :=
  match source with
  | Val.int 0 => "Creating"
  | Val.int 2 => "Deleting"
  | Val.int 1 => "Normal"
  | _ => ""

/-- The loop over `d.Get("aggregator_accounts").(*schema.Set).List()` of Create
and Update; `none` is the failed assertion of an element that is no map. -/
def aggregatorAccountsMaps : List Val → Option (List Obj)
  | [] => some []
  | Val.obj aggregatorAccountsArg :: rest =>
    let aggregatorAccountsMap : Obj :=
      [("AccountId", (mapGet aggregatorAccountsArg "account_id").getD Val.null),
       ("AccountName", (mapGet aggregatorAccountsArg "account_name").getD Val.null),
       ("AccountType", (mapGet aggregatorAccountsArg "account_type").getD Val.null)]
    (aggregatorAccountsMaps rest).map (fun ms => aggregatorAccountsMap :: ms)
  | _ :: _ => none

/-- The loop of Read over `object["AggregatorAccounts"]`: elements that are no
map are skipped. -/
def readAggregatorAccounts {ρ : Type} (env : Env ρ) : List Val → List Val
  | [] => []
  | Val.obj m1 :: rest =>
    Val.obj
      [("account_id", Val.str (Sprint env (mapGet m1 "AccountId"))),
       ("account_name", (mapGet m1 "AccountName").getD Val.null),
       ("account_type", (mapGet m1 "AccountType").getD Val.null)]
      :: readAggregatorAccounts env rest
  | _ :: rest => readAggregatorAccounts env rest

/-- The function `resourceAlicloudConfigAggregatorRead`. -/
def resourceAlicloudConfigAggregatorRead {ρ : Type} (env : Env ρ)
    (d : ResourceData) (w : World ρ) : Result ρ :=
  let r := env.DescribeConfigAggregator d.Id w.remote
  let w1 : World ρ := { remote := r.2, log := w.log ++ [Call.describe "ConfigAggregator" d.Id] }
  match r.1 with
  | Except.error err =>
    if env.NotFoundError err then Result.ok (d.SetId "") w1
    else Result.fail (GoError.wrap err) d w1
  | Except.ok object =>
    let aggregatorAccounts : List Val :=
      match mapGet object "AggregatorAccounts" with
      | some (Val.list aggregatorAccountsList) => readAggregatorAccounts env aggregatorAccountsList
      | _ => []
    let d := d.Set "aggregator_accounts" (some (Val.list aggregatorAccounts))
    let d := d.Set "aggregator_name" (mapGet object "AggregatorName")
    let d := d.Set "aggregator_type" (mapGet object "AggregatorType")
    let d := d.Set "description" (mapGet object "Description")
    let d := d.Set "status" (some (Val.str (convertConfigAggregatorStatusResponse
      (Val.int (env.formatInt (mapGet object "AggregatorStatus"))))))
    Result.ok d w1

/-- The request map of `resourceAlicloudConfigAggregatorCreate`, given the
serialised accounts. -/
def configAggregatorCreateRequest {ρ : Type} (env : Env ρ) (d : ResourceData) (v : String) : Obj :=
  let request : Obj := []
  let request := mapSet request "AggregatorAccounts" (Val.str v)
  let request :=
    match d.GetOk "aggregator_name" with
    | some v => mapSet request "AggregatorName" v
    | none => request
  let request :=
    match d.GetOk "aggregator_type" with
    | some v => mapSet request "AggregatorType" v
    | none => request
  let request :=
    match d.GetOk "description" with
    | some v => mapSet request "Description" v
    | none => request
  mapSet request "ClientToken" (Val.str (env.buildClientToken "CreateAggregator"))

/-- The function `resourceAlicloudConfigAggregatorCreate`. -/
def resourceAlicloudConfigAggregatorCreate {ρ : Type} (env : Env ρ)
    (d : ResourceData) (w : World ρ) : Result ρ :=
  match aggregatorAccountsMaps (d.GetSet "aggregator_accounts") with
  | none => Result.panic
  | some maps =>
    match env.convertArrayObjectToJsonString maps with
    | Except.error err => Result.fail (GoError.wrap err) d w
    | Except.ok v =>
      let request := configAggregatorCreateRequest env d v
      let action := "CreateAggregator"
      match Retry (env.attempts (d.Timeout TimeoutKey.TimeoutCreate))
          (rpcAttempt env "Config" "2020-09-07" action request true (needRetryOnError env))
          (w, none) with
      | (some err, (w1, _)) =>
        Result.fail (WrapErrorf err DefaultErrorMsg
          ["alicloud_config_aggregator", action, AlibabaCloudSdkGoERROR]) d w1
      | (none, (w1, response)) =>
        let d1 := d.SetId (Sprint env (response.bind (fun m => mapGet m "AggregatorId")))
        let p := env.ConfigAggregatorWaitForState d1.Id (d1.Timeout TimeoutKey.TimeoutCreate) w1.remote
        let w2 : World ρ :=
          { remote := p.2,
            log := w1.log ++ [Call.wait "ConfigAggregator" d1.Id "1" (d1.Timeout TimeoutKey.TimeoutCreate)] }
        match p.1 with
        | some err => Result.fail (WrapErrorf err IdMsg [d1.Id]) d1 w2
        | none => resourceAlicloudConfigAggregatorRead env d1 w2

/-- The request map of `resourceAlicloudConfigAggregatorUpdate` before the
`if update` block, given the serialised accounts. -/
def configAggregatorUpdateRequest (d : ResourceData) (v : String) : Obj :=
  let request : Obj := [("AggregatorId", Val.str d.Id)]
  let request := mapSet request "AggregatorAccounts" (Val.str v)
  let request :=
    if d.HasChange "aggregator_name" then
      match d.GetOk "aggregator_name" with
      | some v => mapSet request "AggregatorName" v
      | none => request
    else request
  if d.HasChange "description" then
    match d.GetOk "description" with
    | some v => mapSet request "Description" v
    | none => request
  else request

/-- The variable `update` of `resourceAlicloudConfigAggregatorUpdate` at the
`if update` test. -/
def configAggregatorUpdateFlag (d : ResourceData) : Bool :=
  d.HasChange "aggregator_accounts" || d.HasChange "aggregator_name" || d.HasChange "description"

/-- The function `resourceAlicloudConfigAggregatorUpdate`. -/
def resourceAlicloudConfigAggregatorUpdate {ρ : Type} (env : Env ρ)
    (d : ResourceData) (w : World ρ) : Result ρ :=
  match aggregatorAccountsMaps (d.GetSet "aggregator_accounts") with
  | none => Result.panic
  | some maps =>
    match env.convertArrayObjectToJsonString maps with
    | Except.error err => Result.fail (GoError.wrap err) d w
    | Except.ok v =>
      let request := configAggregatorUpdateRequest d v
      if configAggregatorUpdateFlag d then
        let action := "UpdateAggregator"
        let request := mapSet request "ClientToken" (Val.str (env.buildClientToken "UpdateAggregator"))
        match Retry (env.attempts (d.Timeout TimeoutKey.TimeoutUpdate))
            (rpcAttempt env "Config" "2020-09-07" action request true (needRetryOnError env))
            (w, none) with
        | (some err, (w1, _)) =>
          Result.fail (WrapErrorf err DefaultErrorMsg [d.Id, action, AlibabaCloudSdkGoERROR]) d w1
        | (none, (w1, _)) => resourceAlicloudConfigAggregatorRead env d w1
      else resourceAlicloudConfigAggregatorRead env d w

/-- The request map of `resourceAlicloudConfigAggregatorDelete`. -/
def configAggregatorDeleteRequest {ρ : Type} (env : Env ρ) (d : ResourceData) : Obj :=
  mapSet [("AggregatorIds", Val.str d.Id)] "ClientToken"
    (Val.str (env.buildClientToken "DeleteAggregators"))

/-- The function `resourceAlicloudConfigAggregatorDelete`. -/
def resourceAlicloudConfigAggregatorDelete {ρ : Type} (env : Env ρ)
    (d : ResourceData) (w : World ρ) : Result ρ :=
  let request := configAggregatorDeleteRequest env d
  let action := "DeleteAggregators"
  match Retry (env.attempts (d.Timeout TimeoutKey.TimeoutDelete))
      (rpcAttempt env "Config" "2020-09-07" action request true (needRetryOnError env))
      (w, none) with
  | (some err, (w1, _)) =>
    if env.IsExpectedErrors err ["AccountNotExisted", "Invalid.AggregatorIds.Empty"] then
      Result.ok d w1
    else Result.fail (WrapErrorf err DefaultErrorMsg [d.Id, action, AlibabaCloudSdkGoERROR]) d w1
  | (none, (w1, _)) => Result.ok d w1

/-! ## `resource_alicloud_db_read_write_splitting_connection.go` -/

/-- The function `strconv.Itoa`. -/
def Itoa (n : Int) : String := toString n

/-- The function `strconv.Atoi`: an optional sign, then decimal digits, within
the range of a 64-bit `int`; `none` is the error return. -/
def Atoi (s : String) : Option Int :=
  let body : Bool × List Char :=
    match s.data with
    | '-' :: r => (true, r)
    | '+' :: r => (false, r)
    | cs => (false, cs)
  if body.2.isEmpty || !body.2.all Char.isDigit then none
  else
    let n : Nat := body.2.foldl (fun a c => 10 * a + (c.toNat - 48)) 0
    let v : Int := if body.1 then -(n : Int) else (n : Int)
    if v < -(2 ^ 63 : Int) || v > (2 ^ 63 : Int) - 1 then none else some v

/-- The class `[a-zA-Z0-9\-_]` of `dbConnectionPrefixWithSuffixRegex`. -/
def connectionClassChar (c : Char) : Bool :=
  c.isAlphanum || c == '-' || c == '_'

/-- Search of the split of `s` at position `n`, `n - 1`, ..., `1`: the first
part in the class, the rest matched by the suffix expression. -/
def findSplit (suffix : List Char → Bool) (s : List Char) : Nat → Option (List Char)
  | 0 => none
  | n + 1 =>
    if (s.take (n + 1)).all connectionClassChar && suffix (s.drop (n + 1)) then
      some (s.take (n + 1))
    else findSplit suffix s n

/-- Group 1 of `dbConnectionPrefixWithSuffixRegexp.FindStringSubmatch(s)`, when
there is a match: the expression is `^([a-zA-Z0-9\-_]+)`, the suffix
expression, `$`; the greedy group takes the longest first part that lets the
rest match.  `suffix` decides whether a whole string matches the suffix
expression `dbConnectionSuffixRegex`. -/
def FindStringSubmatch (suffix : List Char → Bool) (s : String) : Option String :=
  (findSplit suffix s.data s.data.length).map String.mk

/-- A call of a wait function of the service layer, with its log entry. -/
def waitCall {ρ : Type} (f : String → String → Nat → ρ → Option GoError × ρ)
    (service id status : String) (timeout : Nat) (w : World ρ) : Option GoError × World ρ :=
  let p := f id status timeout w.remote
  (p.1, { remote := p.2, log := w.log ++ [Call.wait service id status timeout] })

/-- The loop of Read over `dBInstanceWeights`, on the map `documented`; `none`
is a failed type assertion. -/
def mergeDBInstanceWeights : Obj → List Val → Option Obj
  | documented, [] => some documented
  | documented, Val.obj config :: rest =>
    if !isStr (mapGet config "Availability") "Available" then
      match mapGet config "DBInstanceId" with
      | some (Val.str id) => mergeDBInstanceWeights (mapDelete documented id) rest
      | _ => none
    else if !isStr (mapGet config "Weight") "0" then
      match mapGet config "DBInstanceId" with
      | some (Val.str id) =>
        match mapGet documented id with
        | some _ => mergeDBInstanceWeights (mapSetI documented id (mapGet config "Weight")) rest
        | none => mergeDBInstanceWeights documented rest
      | _ => none
    else mergeDBInstanceWeights documented rest
  | _, _ :: _ => none

/-- The expression
`object["DBInstanceWeights"].(map[string]interface{})["DBInstanceWeight"].([]interface{})`. -/
def dBInstanceWeightsOf (object : Obj) : Option (List Val) :=
  match mapGet object "DBInstanceWeights" with
  | some (Val.obj m) =>
    match mapGet m "DBInstanceWeight" with
    | some (Val.list l) => some l
    | _ => none
  | _ => none

/-- Lines 149 to 158 of Read for one of the keys `Port` and `MaxDelayTime`:
`none` is the failed assertion `.(string)`. -/
def readIntField (d : ResourceData) (object : Obj) (key field : String) : Option ResourceData :=
  match mapGet object key with
  | none => some d
  | some Val.null => some d
  | some (Val.str s) =>
    match Atoi s with
    | some n => some (d.Set field (some (Val.int n)))
    | none => some d
  | some _ => none

/-- Lines 159 to 175 of Read: the weight block. -/
def readWeight (d : ResourceData) (object : Obj) : Option ResourceData :=
  match d.GetOk "weight" with
  | none => some d
  | some (Val.obj documented) =>
    match dBInstanceWeightsOf object with
    | none => none
    | some dBInstanceWeights =>
      match mergeDBInstanceWeights documented dBInstanceWeights with
      | none => none
      | some merged => some (d.Set "weight" (some (Val.obj merged)))
  | some _ => none

/-- Lines 176 to 179 of Read: the prefix extraction. -/
def readConnectionPfx {ρ : Type} (env : Env ρ) (d : ResourceData) (object : Obj) :
    Option ResourceData :=
  match mapGet object "ConnectionString" with
  | some (Val.str s) =>
    match FindStringSubmatch env.dbConnectionSuffix s with
    | some p => some (d.Set "connection_prefix" (some (Val.str p)))
    | none => some d
  | _ => none

/-- Lines 142 to 148 of Read: `instance_id`, `connection_string` and
`distribution_type`. -/
def readStrings (d : ResourceData) (object : Obj) : ResourceData :=
  let d := d.Set "instance_id" (some (Val.str d.Id))
  let d :=
    match mapGet object "ConnectionString" with
    | some v => d.Set "connection_string" (some v)
    | none => d
  match mapGet object "DistributionType" with
  | some v => d.Set "distribution_type" (some v)
  | none => d

/-- Lines 142 to 175 of Read: the fields set before the prefix extraction. -/
def readFields (d : ResourceData) (object : Obj) : Option ResourceData :=
  ((readIntField (readStrings d object) object "Port" "port").bind
    (fun d => readIntField d object "MaxDelayTime" "max_delay_time")).bind
    (fun d => readWeight d object)

/-- Lines 142 to 181 of Read: the mapping of the described object onto the
resource data. -/
def readObject {ρ : Type} (env : Env ρ) (d : ResourceData) (object : Obj) : Option ResourceData :=
  (readFields d object).bind (fun d => readConnectionPfx env d object)

/-- The function `resourceAlicloudDBReadWriteSplittingConnectionRead`. -/
def resourceAlicloudDBReadWriteSplittingConnectionRead {ρ : Type} (env : Env ρ)
    (d : ResourceData) (w : World ρ) : Result ρ :=
  match waitCall env.WaitForDBReadWriteSplitting "DBReadWriteSplitting" d.Id ""
      env.DefaultLongTimeout w with
  | (some err, w1) => Result.fail (GoError.wrap err) d w1
  | (none, w1) =>
    let r := env.DescribeDBReadWriteSplittingConnection d.Id w1.remote
    let w2 : World ρ :=
      { remote := r.2, log := w1.log ++ [Call.describe "DBReadWriteSplittingConnection" d.Id] }
    match r.1 with
    | Except.error err =>
      if env.NotFoundError err then Result.ok (d.SetId "") w2
      else Result.fail (GoError.wrap err) d w2
    | Except.ok object =>
      match readObject env d object with
      | none => Result.panic
      | some d1 => Result.ok d1 w2

/-- The `weight` block of Create and Update: `Weight` is set to the serialised
map when `weight` is set and not empty.  The outer `none` is a failed type
assertion, `Except.error` the error of `json.Marshal`. -/
def setWeightParam {ρ : Type} (env : Env ρ) (d : ResourceData) (request : Obj) :
    Option (Except GoError Obj) :=
  match d.GetOk "weight" with
  | none => some (Except.ok request)
  | some (Val.obj weight) =>
    if weight.length > 0 then
      match env.jsonMarshal (Val.obj weight) with
      | Except.error err => some (Except.error err)
      | Except.ok serial => some (Except.ok (mapSet request "Weight" (Val.str serial)))
    else some (Except.ok request)
  | some _ => none

/-- The request map of Create up to the `weight` block. -/
def readWriteSplittingCreateRequest {ρ : Type} (env : Env ρ) (d : ResourceData) : Option Obj :=
  let request : Obj :=
    [("RegionId", Val.str env.RegionId),
     ("DBInstanceId", Val.str (env.Trim (d.GetString "instance_id"))),
     ("MaxDelayTime", Val.str (Itoa (d.GetInt "max_delay_time"))),
     ("SourceIp", Val.str env.SourceIp)]
  let request : Option Obj :=
    match d.GetOk "connection_prefix" with
    | none => some request
    | some (Val.str p) =>
      if p ≠ "" then some (mapSet request "ConnectionStringPrefix" (Val.str p)) else some request
    | some _ => none
  let request : Option Obj :=
    request.bind (fun request =>
      match d.GetOk "port" with
      | none => some request
      | some (Val.int port) => some (mapSet request "Port" (Val.str (Itoa port)))
      | some _ => none)
  request.map (fun request =>
    mapSet request "DistributionType" (Val.str (d.GetString "distribution_type")))

/-- The error branch of the retried call of Create. -/
def readWriteSplittingCreateOnError {ρ : Type} (env : Env ρ) (err : GoError) : Option RetryError :=
  if env.IsExpectedErrors err env.DBReadInstanceNotReadyStatus || env.NeedRetry err then
    some (RetryError.RetryableError err)
  else some (RetryError.NonRetryableError err)

/-- The error branch of the retried call of Update. -/
def readWriteSplittingUpdateOnError {ρ : Type} (env : Env ρ) (err : GoError) : Option RetryError :=
  if env.IsExpectedErrors err env.OperationDeniedDBStatus
      || env.IsExpectedErrors err env.DBReadInstanceNotReadyStatus || env.NeedRetry err then
    some (RetryError.RetryableError err)
  else some (RetryError.NonRetryableError err)

/-- The error branch of the retried call of Delete. -/
def readWriteSplittingDeleteOnError {ρ : Type} (env : Env ρ) (err : GoError) : Option RetryError :=
  if env.IsExpectedErrors err env.OperationDeniedDBStatus || env.NeedRetry err then
    some (RetryError.RetryableError err)
  else if env.NotFoundError err
      || env.IsExpectedErrors err ["InvalidRwSplitNetType.NotFound"] then
    none
  else some (RetryError.NonRetryableError err)

/-- The request map of Update before the `IsNewResource` test. -/
def readWriteSplittingUpdateRequest1 {ρ : Type} (env : Env ρ) (d : ResourceData) : Obj :=
  let request : Obj :=
    [("RegionId", Val.str env.RegionId),
     ("DBInstanceId", Val.str d.Id),
     ("SourceIp", Val.str env.SourceIp)]
  if d.HasChange "max_delay_time" then
    mapSet request "MaxDelayTime" (Val.str (Itoa (d.GetInt "max_delay_time")))
  else request

/-- The request map of Update at the `if update` test: the outer `none` is a
failed type assertion, `Except.error` the error of `json.Marshal`. -/
def readWriteSplittingUpdateRequest {ρ : Type} (env : Env ρ) (d : ResourceData) :
    Option (Except GoError Obj) :=
  let request := readWriteSplittingUpdateRequest1 env d
  let request : Option (Except GoError Obj) :=
    if d.HasChange "weight" then setWeightParam env d request else some (Except.ok request)
  request.map (fun r => r.map (fun request =>
    if d.HasChange "distribution_type" then
      mapSet request "DistributionType" (Val.str (d.GetString "distribution_type"))
    else request))

/-- The variable `update` of Update at the `if update` test. -/
def readWriteSplittingUpdateFlag (d : ResourceData) : Bool :=
  d.HasChange "max_delay_time" || d.HasChange "weight" || d.HasChange "distribution_type"

/-- The function `resourceAlicloudDBReadWriteSplittingConnectionUpdate`. -/
def resourceAlicloudDBReadWriteSplittingConnectionUpdate {ρ : Type} (env : Env ρ)
    (d : ResourceData) (w : World ρ) : Result ρ :=
  let action := "ModifyReadWriteSplittingConnection"
  if !d.HasChange "max_delay_time" && d.IsNewResource then
    let p := env.RdsDBInstanceWaitForState d.Id (d.Timeout TimeoutKey.TimeoutRead) w.remote
    let w1 : World ρ :=
      { remote := p.2,
        log := w.log ++ [Call.wait "RdsDBInstanceState" d.Id "Running" (d.Timeout TimeoutKey.TimeoutRead)] }
    match p.1 with
    | some err => Result.fail (WrapErrorf err IdMsg [d.Id]) d w1
    | none => resourceAlicloudDBReadWriteSplittingConnectionRead env d w1
  else
    match readWriteSplittingUpdateRequest env d with
    | none => Result.panic
    | some (Except.error err) => Result.fail err d w
    | some (Except.ok request) =>
      if readWriteSplittingUpdateFlag d then
        match waitCall env.WaitForDBInstance "DBInstance" d.Id env.Running (60 * 60) w with
        | (some err, w1) => Result.fail (GoError.wrap err) d w1
        | (none, w1) =>
          match Retry (env.attempts (30 * 60))
              (rpcAttempt env "Rds" "2014-08-15" action request false
                (readWriteSplittingUpdateOnError env))
              (w1, none) with
          | (some err, (w2, _)) =>
            Result.fail (WrapErrorf err DefaultErrorMsg [d.Id, action, AlibabaCloudSdkGoERROR]) d w2
          | (none, (w2, _)) =>
            match waitCall env.WaitForDBInstance "DBInstance" d.Id env.Running
                env.DefaultTimeoutMedium w2 with
            | (some err, w3) => Result.fail (GoError.wrap err) d w3
            | (none, w3) => resourceAlicloudDBReadWriteSplittingConnectionRead env d w3
      else resourceAlicloudDBReadWriteSplittingConnectionRead env d w

/-- The function `resourceAlicloudDBReadWriteSplittingConnectionCreate`. -/
def resourceAlicloudDBReadWriteSplittingConnectionCreate {ρ : Type} (env : Env ρ)
    (d : ResourceData) (w : World ρ) : Result ρ :=
  let action := "AllocateReadWriteSplittingConnection"
  match (readWriteSplittingCreateRequest env d).bind (setWeightParam env d) with
  | none => Result.panic
  | some (Except.error err) => Result.fail (GoError.wrap err) d w
  | some (Except.ok request) =>
    match Retry (env.attempts (60 * 60))
        (rpcAttempt env "Rds" "2014-08-15" action request false
          (readWriteSplittingCreateOnError env))
        (w, none) with
    | (some err, (w1, _)) =>
      Result.fail (WrapErrorf err DefaultErrorMsg [d.Id, action, AlibabaCloudSdkGoERROR]) d w1
    | (none, (w1, _)) =>
      let instanceId := env.Trim (d.GetString "instance_id")
      let d1 := d.SetId instanceId
      match waitCall env.WaitForDBReadWriteSplitting "DBReadWriteSplitting" instanceId ""
          (60 * 60 * 10) w1 with
      | (some err, w2) => Result.fail (GoError.wrap err) d1 w2
      | (none, w2) => resourceAlicloudDBReadWriteSplittingConnectionUpdate env d1 w2

/-- The request map of `resourceAlicloudDBReadWriteSplittingConnectionDelete`. -/
def readWriteSplittingDeleteRequest {ρ : Type} (env : Env ρ) (d : ResourceData) : Obj :=
  [("RegionId", Val.str env.RegionId), ("DBInstanceId", Val.str d.Id),
   ("SourceIp", Val.str env.SourceIp)]

/-- The function `resourceAlicloudDBReadWriteSplittingConnectionDelete`. -/
def resourceAlicloudDBReadWriteSplittingConnectionDelete {ρ : Type} (env : Env ρ)
    (d : ResourceData) (w : World ρ) : Result ρ :=
  let action := "ReleaseReadWriteSplittingConnection"
  let request := readWriteSplittingDeleteRequest env d
  match Retry (env.attempts (30 * 60))
      (rpcAttempt env "Rds" "2014-08-15" action request false
        (readWriteSplittingDeleteOnError env))
      (w, none) with
  | (some err, (w1, _)) =>
    Result.fail (WrapErrorf err DefaultErrorMsg [d.Id, action, AlibabaCloudSdkGoERROR]) d w1
  | (none, (w1, _)) =>
    match waitCall env.WaitForDBReadWriteSplitting "DBReadWriteSplitting" d.Id env.Deleted
        env.DefaultLongTimeout w1 with
    | (some err, w2) => Result.fail (GoError.wrap err) d w2
    | (none, w2) => Result.ok d w2

/-! ## Environments for closed instances -/

/-- The error code at the root of an error. -/
def GoError.code (e : GoError) : String :=
  match e.rootCause with
  | GoError.sdk c _ => c
  | _ => ""

/-- An environment with the given `RpcPost` and one lookup shared by the three
describe functions; every wait answers `wait`.  Errors with the code
`Throttling` or `ServiceUnavailable` are the retryable ones, errors with a
code ending in `NotFound` the not-found ones, and an error is expected when
its code is listed.  One attempt fits in each second of a timeout. -/
def mkEnv {ρ : Type} (rpc : String → String → String → Obj → Bool → ρ → Except GoError Obj × ρ)
    (describe : String → ρ → Except GoError Obj × ρ) (wait : Option GoError) : Env ρ where
  RegionId := "cn-hangzhou"
  SourceIp := "10.0.0.1"
  NeedRetry := fun e => decide (e.code ∈ ["Throttling", "ServiceUnavailable"])
  NotFoundError := fun e => "NotFound".data.isSuffixOf e.code.data
  IsExpectedErrors := fun e codes => decide (e.code ∈ codes)
  OperationDeniedDBStatus := ["OperationDenied.DBStatus"]
  DBReadInstanceNotReadyStatus := ["OperationDenied.ReadDBInstanceStatus"]
  DefaultLongTimeout := 180
  DefaultTimeoutMedium := 120
  Running := "Running"
  Deleted := "Deleted"
  buildClientToken := fun action => action ++ "-token"
  Trim := fun s => s
  formatInt := fun v =>
    match v with
    | some (Val.int n) => n
    | some (Val.num n) => n
    | _ => 0
  sprintOther := fun _ => "?"
  jsonMarshal := fun _ => Except.ok "json"
  convertArrayObjectToJsonString := fun _ => Except.ok "json"
  dbConnectionSuffix := fun s => decide (s = ".rw.rds.aliyuncs.com".data)
  attempts := fun t => t
  RpcPost := rpc
  DescribeBrainIndustrialPidOrganization := describe
  DescribeConfigAggregator := describe
  DescribeDBReadWriteSplittingConnection := describe
  WaitForDBReadWriteSplitting := fun _ _ _ s => (wait, s)
  WaitForDBInstance := fun _ _ _ s => (wait, s)
  ConfigAggregatorWaitForState := fun _ _ s => (wait, s)
  RdsDBInstanceWaitForState := fun _ _ s => (wait, s)

/-- A remote whose `RpcPost` answers are scripted: the state is the list of
the answers still to come, every describe call answers `describe`, every wait
answers `wait`. -/
def scriptEnv (describe : Except GoError Obj) (wait : Option GoError) :
    Env (List (Except GoError Obj)) :=
  mkEnv
    (fun _ _ _ _ _ s =>
      match s with
      | [] => (Except.error (GoError.sdk "ScriptExhausted" ""), [])
      | o :: rest => (o, rest))
    (fun _ s => (describe, s)) wait

/-- A remote that keeps PID organizations: the next number to hand out and the
stored names by organization ID. -/
structure PidStore where
  next : Nat
  orgs : Obj

/-- The remote of the PID organizations: `CreatePidOrganization` stores the
`OrganizationName` it receives under a new `OrganizationId` and returns that
ID, and a describe answers with the stored name, or with a not-found error for
an unknown ID. -/
def pidStoreEnv : Env PidStore :=
  mkEnv
    (fun _ _ action request _ s =>
      if action = "CreatePidOrganization" then
        let id := "org-" ++ toString s.next
        (Except.ok [("OrganizationId", Val.str id)],
          { next := s.next + 1,
            orgs := mapSet s.orgs id ((mapGet request "OrganizationName").getD Val.null) })
      else (Except.error (GoError.sdk "UnsupportedOperation" action), s))
    (fun id s =>
      match mapGet s.orgs id with
      | some name => (Except.ok [("OrganizationName", name)], s)
      | none => (Except.error (GoError.sdk "NotFound" id), s))
    none

/-- Resource data with the given ID, values and changed keys, of an existing
resource, with a create timeout of 10, a read timeout of 20, an update timeout
of 5 and a delete timeout of 7 seconds. -/
def sampleData (id : String) (vals : Obj) (changed : List String) : ResourceData where
  id := id
  vals := vals
  changed := changed
  isNew := false
  timeouts := fun k =>
    match k with
    | TimeoutKey.TimeoutCreate => 10
    | TimeoutKey.TimeoutRead => 20
    | TimeoutKey.TimeoutUpdate => 5
    | TimeoutKey.TimeoutDelete => 7

/-- The world at the start: the given remote state and an empty log. -/
def World.start {ρ : Type} (s : ρ) : World ρ := { remote := s, log := [] }

/-- The resource data a result leaves, if any. -/
def Result.data {ρ : Type} : Result ρ → Option ResourceData
  | Result.panic => none
  | Result.fail _ d _ => some d
  | Result.ok d _ => some d

/-- The world a result leaves, if any. -/
def Result.world {ρ : Type} : Result ρ → Option (World ρ)
  | Result.panic => none
  | Result.fail _ _ w => some w
  | Result.ok _ w => some w

/-- The error a result returns, if any. -/
def Result.err {ρ : Type} : Result ρ → Option GoError
  | Result.fail e _ _ => some e
  | _ => none

/-- Whether the function returned nil. -/
def Result.isOk {ρ : Type} : Result ρ → Bool
  | Result.ok _ _ => true
  | _ => false

/-- The `DBInstanceId` of an element of the server list that is a map with a
string under that key. -/
def entryId : Val → Option String
  | Val.obj config =>
    match mapGet config "DBInstanceId" with
    | some (Val.str id) => some id
    | _ => none
  | _ => none

/-- An element of `DBInstanceWeight` as the API returns it. -/
def weightEntry (id availability weight : String) : Val :=
  Val.obj [("DBInstanceId", Val.str id), ("Availability", Val.str availability),
    ("Weight", Val.str weight)]

/-- Whether no element of the list carries the instance ID. -/
def omitsId (entries : List Val) (id : String) : Prop :=
  ∀ e ∈ entries, entryId e ≠ some id

/-- Whether every element of the list is a map with a string `DBInstanceId`. -/
def wellFormedEntries (entries : List Val) : Prop :=
  ∀ e ∈ entries, (entryId e).isSome = true

/-- Whether the key of the described object is absent, null or a string: the
values for which lines 149 to 158 of Read pass their type assertion. -/
def stringOrNil (object : Obj) (key : String) : Prop :=
  mapGet object key = none ∨ mapGet object key = some Val.null
    ∨ ∃ s, mapGet object key = some (Val.str s)

/-- The weight a result holds for an instance ID under `weight`. -/
def Result.weightOf {ρ : Type} (r : Result ρ) (id : String) : Option Val :=
  match r.data.bind (fun d => mapGet d.vals "weight") with
  | some (Val.obj m) => mapGet m id
  | _ => none

/-- A described connection with the given connection string and server list. -/
def sampleConnection (cs : String) (entries : List Val) : Obj :=
  [("ConnectionString", Val.str cs), ("DistributionType", Val.str "Custom"),
   ("Port", Val.str "3306"), ("MaxDelayTime", Val.str "30"),
   ("DBInstanceWeights", Val.obj [("DBInstanceWeight", Val.list entries)])]

instance (entries : List Val) (id : String) : Decidable (omitsId entries id) := by
  unfold omitsId
  infer_instance

instance (entries : List Val) : Decidable (wellFormedEntries entries) := by
  unfold wellFormedEntries
  infer_instance

/-- A declared weight map with the instances `a`, `b` and `c`. -/
def sampleWeights : Obj := [("a", Val.str "1"), ("b", Val.str "2"), ("c", Val.str "3")]

/-- A server list that omits `a`, reports `b` as available with the weight 5
and `c` as unavailable with the weight 9. -/
def sampleEntries : List Val :=
  [weightEntry "b" "Available" "5", weightEntry "c" "Unavailable" "9"]

/-- The environment in which the connection `rm-1` is ready and described with
`sampleEntries`. -/
def sampleConnectionEnv : Env (List (Except GoError Obj)) :=
  scriptEnv (Except.ok (sampleConnection "pfx-1.rw.rds.aliyuncs.com" sampleEntries)) none

/-- The local data of the connection `rm-1` with `sampleWeights` declared. -/
def sampleConnectionData : ResourceData :=
  sampleData "rm-1" [("weight", Val.obj sampleWeights), ("connection_prefix", Val.str "old")] []

/-- The answers of `n` successive `RpcPost` calls with the same arguments,
starting in the remote state `s`, and the remote state after them. -/
def rpcAnswers {ρ : Type} (env : Env ρ) (product version action : String) (request : Obj)
    (autoRetry : Bool) : Nat → ρ → List (Except GoError Obj) × ρ
  | 0, s => ([], s)
  | n + 1, s =>
    let r := env.RpcPost product version action request autoRetry s
    let rest := rpcAnswers env product version action request autoRetry n r.2
    (r.1 :: rest.1, rest.2)

/-- What the function passed to `resource.Retry` returns on an answer. -/
def attemptReturn (onError : GoError → Option RetryError) :
    Except GoError Obj → Option RetryError
  | Except.ok _ => none
  | Except.error err => onError err

/-- Whether the retried function asks for another attempt on this answer. -/
def isRetryable (onError : GoError → Option RetryError) (a : Except GoError Obj) : Bool :=
  match attemptReturn onError a with
  | some (RetryError.RetryableError _) => true
  | _ => false

/-- The error `resource.Retry` returns when the last attempt got this answer
and no retry is asked for. -/
def finalError (onError : GoError → Option RetryError) (a : Except GoError Obj) : Option GoError :=
  match attemptReturn onError a with
  | some (RetryError.NonRetryableError e) => some e
  | some (RetryError.RetryableError e) => some e
  | none => none

/-- The value of the variable `response` after an attempt with this answer. -/
def responseOf : Except GoError Obj → Option Obj
  | Except.ok response => some response
  | Except.error _ => none

/-- The environment whose lookups answer that the resource does not exist and
whose waits succeed. -/
def goneEnv : Env (List (Except GoError Obj)) :=
  scriptEnv (Except.error (GoError.sdk "NotFound" "")) none

/-- The `RpcPost` calls of a log: action and request of each, in order. -/
def rpcCalls : List Call → List (String × Obj)
  | [] => []
  | Call.rpc _ _ action request :: rest => (action, request) :: rpcCalls rest
  | _ :: rest => rpcCalls rest

/-- The number of requests of any kind a result has in its log. -/
def Result.requests {ρ : Type} (r : Result ρ) : Nat :=
  match r.world with
  | some w => w.log.length
  | none => 0

/-- The values a result's `RpcPost` calls carry under a parameter name. -/
def Result.sentParam {ρ : Type} (r : Result ρ) (k : String) : List (Option Val) :=
  match r.world with
  | some w => (rpcCalls w.log).map (fun c => mapGet c.2 k)
  | none => []

/-- The actions of a result's `RpcPost` calls. -/
def Result.sentActions {ρ : Type} (r : Result ρ) : List String :=
  match r.world with
  | some w => (rpcCalls w.log).map Prod.fst
  | none => []

/-- A remote that answers every `RpcPost` call with an error for which
`NeedRetry` holds. -/
def alwaysBusy {ρ : Type} (env : Env ρ) : Prop :=
  ∀ (product version action : String) (request : Obj) (autoRetry : Bool) (s : ρ),
    ∃ e, (env.RpcPost product version action request autoRetry s).1 = Except.error e ∧
      env.NeedRetry e = true

/-- The remote that answers every `RpcPost` call with `Throttling`. -/
def busyEnv : Env Unit :=
  mkEnv (fun _ _ _ _ _ s => (Except.error (GoError.sdk "Throttling" ""), s))
    (fun _ s => (Except.ok [], s)) none

/-- The scripted remote in which one attempt of a retried call takes ten
minutes. -/
def slowEnv : Env (List (Except GoError Obj)) :=
  { scriptEnv (Except.ok []) none with attempts := fun t => t / 600 }

/-- A script of `n` answers `Throttling`. -/
def busyScript (n : Nat) : List (Except GoError Obj) :=
  List.replicate n (Except.error (GoError.sdk "Throttling" ""))

/-- The answers a retried call gets from the remote state `s`: the answers
`pending`, each asking for a retry, then `final`, which does not; all of them
fit in `n` attempts, and `s1` is the remote state after them. -/
def retryRun {ρ : Type} (env : Env ρ) (product version action : String) (request : Obj)
    (autoRetry : Bool) (onError : GoError → Option RetryError) (n : Nat) (s : ρ)
    (pending : List (Except GoError Obj)) (final : Except GoError Obj) (s1 : ρ) : Prop :=
  pending.length < n ∧ (∀ a ∈ pending, isRetryable onError a = true) ∧
    isRetryable onError final = false ∧
    rpcAnswers env product version action request autoRetry (pending.length + 1) s =
      (pending ++ [final], s1)

/-- Whether the elements of the server list carry pairwise different instance
IDs. -/
def distinctIds (entries : List Val) : Prop :=
  entries.Pairwise (fun a b => entryId a ≠ entryId b)

instance (entries : List Val) : Decidable (distinctIds entries) := by
  unfold distinctIds
  infer_instance

/-- Whether the function ended in a failed type assertion. -/
def Result.isPanic {ρ : Type} : Result ρ → Bool
  | Result.panic => true
  | _ => false

/-- A described connection as `sampleConnection` gives it, without the key
`ConnectionString`. -/
def connectionWithoutString (entries : List Val) : Obj :=
  [("DistributionType", Val.str "Custom"), ("Port", Val.str "3306"),
   ("MaxDelayTime", Val.str "30"),
   ("DBInstanceWeights", Val.obj [("DBInstanceWeight", Val.list entries)])]

/-- A described connection as `sampleConnection` gives it, without the key
`DBInstanceWeights`. -/
def connectionWithoutWeights (cs : String) : Obj :=
  [("ConnectionString", Val.str cs), ("DistributionType", Val.str "Custom"),
   ("Port", Val.str "3306"), ("MaxDelayTime", Val.str "30")]


/-! # Properties -/

/-! ## Maps -/

theorem mapGet_mapDelete_self (m : Obj) (k : String) : mapGet (mapDelete m k) k = none := by
  induction m with
  | nil => rfl
  | cons p rest ih =>
    obtain ⟨j, v⟩ := p
    by_cases h : j = k
    · simp [mapDelete, h, ih]
    · simp [mapDelete, mapGet, h, ih]

theorem mapGet_mapDelete_ne (m : Obj) (j k : String) (h : j ≠ k) :
    mapGet (mapDelete m j) k = mapGet m k := by
  induction m with
  | nil => rfl
  | cons p rest ih =>
    obtain ⟨i, v⟩ := p
    by_cases hij : i = j
    · have hik : i ≠ k := by rw [hij]; exact h
      simp [mapDelete, mapGet, hij, ih, h]
    · by_cases hik : i = k
      · subst hik
        simp [mapDelete, mapGet, hij]
      · simp [mapDelete, mapGet, hij, hik, ih]

theorem mapGet_mapSet_self (m : Obj) (k : String) (v : Val) : mapGet (mapSet m k v) k = some v := by
  simp [mapSet, mapGet]

theorem mapGet_mapSet_ne (m : Obj) (j k : String) (v : Val) (h : j ≠ k) :
    mapGet (mapSet m j v) k = mapGet m k := by
  simp [mapSet, mapGet, h, mapGet_mapDelete_ne m j k h]

theorem mapGet_Set_ne (d : ResourceData) (j k : String) (v : Option Val) (h : j ≠ k) :
    mapGet (d.Set j v).vals k = mapGet d.vals k := by
  cases v with
  | none => exact mapGet_mapDelete_ne _ _ _ h
  | some x => exact mapGet_mapSet_ne _ _ _ _ h

theorem mapGet_Set_self (d : ResourceData) (k : String) (v : Val) :
    mapGet (d.Set k (some v)).vals k = some v := by
  simp [ResourceData.Set, mapGet_mapSet_self]

theorem GetOk_Set_ne (d : ResourceData) (j k : String) (v : Option Val) (h : j ≠ k) :
    (d.Set j v).GetOk k = d.GetOk k := by
  simp [ResourceData.GetOk, mapGet_Set_ne d j k v h]

theorem Set_id (d : ResourceData) (k : String) (v : Option Val) : (d.Set k v).id = d.id := by
  cases v <;> rfl

/-! ## The weight merge -/

theorem entryId_obj (config : Obj) (id : String) (h : entryId (Val.obj config) = some id) :
    mapGet config "DBInstanceId" = some (Val.str id) := by
  cases hc : mapGet config "DBInstanceId" with
  | none => simp [entryId, hc] at h
  | some v =>
    cases v with
    | str j =>
      simp [entryId, hc] at h
      rw [h]
    | _ => simp [entryId, hc] at h

theorem entryId_isObj (e : Val) (h : (entryId e).isSome = true) :
    ∃ config id, e = Val.obj config ∧ mapGet config "DBInstanceId" = some (Val.str id) := by
  cases e with
  | obj config =>
    obtain ⟨id, hid⟩ := Option.isSome_iff_exists.mp h
    exact ⟨config, id, rfl, entryId_obj config id hid⟩
  | _ => simp [entryId] at h

/-- One step of the merge on a map entry with a string ID. -/
theorem merge_cons (documented : Obj) (config : Obj) (rest : List Val) (id : String)
    (hid : mapGet config "DBInstanceId" = some (Val.str id)) :
    mergeDBInstanceWeights documented (Val.obj config :: rest) =
      mergeDBInstanceWeights
        (if !isStr (mapGet config "Availability") "Available" then mapDelete documented id
         else if !isStr (mapGet config "Weight") "0" then
           (match mapGet documented id with
            | some _ => mapSetI documented id (mapGet config "Weight")
            | none => documented)
         else documented) rest := by
  rw [mergeDBInstanceWeights]
  simp only [hid]
  split
  · rfl
  · split
    · cases mapGet documented id <;> rfl
    · rfl

theorem merge_total (entries : List Val) :
    ∀ documented : Obj, wellFormedEntries entries →
      ∃ merged, mergeDBInstanceWeights documented entries = some merged := by
  induction entries with
  | nil => intro documented _; exact ⟨documented, rfl⟩
  | cons e rest ih =>
    intro documented hwf
    obtain ⟨config, id, he, hid⟩ := entryId_isObj e (hwf e (List.mem_cons_self _ _))
    subst he
    rw [merge_cons documented config rest id hid]
    exact ih _ (fun x hx => hwf x (List.mem_cons_of_mem _ hx))

theorem merge_omits (entries : List Val) (id : String) :
    ∀ documented merged : Obj, omitsId entries id →
      mergeDBInstanceWeights documented entries = some merged →
      mapGet merged id = mapGet documented id := by
  induction entries with
  | nil =>
    intro documented merged _ h
    simp [mergeDBInstanceWeights] at h
    rw [h]
  | cons e rest ih =>
    intro documented merged hom h
    have hrest : omitsId rest id := fun x hx => hom x (List.mem_cons_of_mem _ hx)
    have he := hom e (List.mem_cons_self _ _)
    cases e with
    | obj config =>
      cases hc : mapGet config "DBInstanceId" with
      | none =>
        rw [mergeDBInstanceWeights] at h
        simp [hc] at h
        exact ih _ _ hrest h.2.2
      | some v =>
        cases v with
        | str j =>
          have hj : j ≠ id := by
            intro hji
            apply he
            simp [entryId, hc, hji]
          rw [merge_cons documented config rest j hc] at h
          rw [ih _ merged hrest h]
          split
          · exact mapGet_mapDelete_ne _ _ _ hj
          · split
            · split
              · exact mapGet_mapSet_ne _ _ _ _ hj
              · rfl
            · rfl
        | _ =>
          rw [mergeDBInstanceWeights] at h
          simp [hc] at h
          exact ih _ _ hrest h.2.2
    | _ => simp [mergeDBInstanceWeights] at h

theorem merge_append (pre post : List Val) :
    ∀ documented : Obj,
      mergeDBInstanceWeights documented (pre ++ post) =
        (mergeDBInstanceWeights documented pre).bind (fun m => mergeDBInstanceWeights m post) := by
  induction pre with
  | nil => intro documented; simp [mergeDBInstanceWeights]
  | cons e rest ih =>
    intro documented
    cases e with
    | obj config =>
      cases hc : mapGet config "DBInstanceId" with
      | none =>
        simp only [List.cons_append, mergeDBInstanceWeights, hc]
        split
        · rfl
        · split
          · rfl
          · exact ih _
      | some v =>
        cases v with
        | str j =>
          rw [List.cons_append, merge_cons documented config (rest ++ post) j hc,
            merge_cons documented config rest j hc, ih]
        | _ =>
          simp only [List.cons_append, mergeDBInstanceWeights, hc]
          split
          · rfl
          · split
            · rfl
            · exact ih _
    | _ => simp [mergeDBInstanceWeights]

/-! ## Read of the read-write-splitting connection -/

theorem GetOk_congr (d d1 : ResourceData) (k : String) (h : mapGet d1.vals k = mapGet d.vals k) :
    d1.GetOk k = d.GetOk k := by
  simp [ResourceData.GetOk, h]

theorem readIntField_spec (d : ResourceData) (object : Obj) (key field : String)
    (h : stringOrNil object key) :
    ∃ d1, readIntField d object key field = some d1 ∧ d1.id = d.id ∧
      ∀ k, field ≠ k → mapGet d1.vals k = mapGet d.vals k := by
  rcases h with h | h | ⟨s, h⟩
  · exact ⟨d, by simp [readIntField, h], rfl, fun _ _ => rfl⟩
  · exact ⟨d, by simp [readIntField, h], rfl, fun _ _ => rfl⟩
  · cases ha : Atoi s with
    | none => exact ⟨d, by simp [readIntField, h, ha], rfl, fun _ _ => rfl⟩
    | some n =>
      exact ⟨d.Set field (some (Val.int n)), by simp [readIntField, h, ha], rfl,
        fun k hk => mapGet_Set_ne d field k _ hk⟩

theorem readConnectionPfx_spec {ρ : Type} (env : Env ρ) (d : ResourceData) (object : Obj)
    (cs : String) (h : mapGet object "ConnectionString" = some (Val.str cs)) :
    ∃ d1, readConnectionPfx env d object = some d1 ∧ d1.id = d.id ∧
      ∀ k, "connection_prefix" ≠ k → mapGet d1.vals k = mapGet d.vals k := by
  cases hf : FindStringSubmatch env.dbConnectionSuffix cs with
  | none => exact ⟨d, by simp [readConnectionPfx, h, hf], rfl, fun _ _ => rfl⟩
  | some p =>
    exact ⟨d.Set "connection_prefix" (some (Val.str p)), by simp [readConnectionPfx, h, hf], rfl,
      fun k hk => mapGet_Set_ne d _ k _ hk⟩

theorem readWeight_spec (d : ResourceData) (object : Obj) (documented merged : Obj)
    (entries : List Val) (hw : d.GetOk "weight" = some (Val.obj documented))
    (hl : dBInstanceWeightsOf object = some entries)
    (hm : mergeDBInstanceWeights documented entries = some merged) :
    readWeight d object = some (d.Set "weight" (some (Val.obj merged))) := by
  simp [readWeight, hw, hl, hm]

/-- Lines 142 to 148 of Read leave the ID and every field but the three they
set. -/
theorem readStrings_spec (d : ResourceData) (object : Obj) :
    (readStrings d object).id = d.id ∧
      ∀ k, "instance_id" ≠ k → "connection_string" ≠ k → "distribution_type" ≠ k →
        mapGet (readStrings d object).vals k = mapGet d.vals k := by
  constructor
  · unfold readStrings
    cases mapGet object "DistributionType" <;> cases mapGet object "ConnectionString" <;>
      simp [Set_id]
  · intro k h1 h2 h3
    unfold readStrings
    cases mapGet object "DistributionType" <;> cases mapGet object "ConnectionString" <;>
      simp [mapGet_Set_ne, h1, h2, h3]

theorem readWriteSplittingRead_ok {ρ : Type} (env : Env ρ) (d d1 : ResourceData) (w : World ρ)
    (r1 r2 : ρ) (object : Obj)
    (hwait : env.WaitForDBReadWriteSplitting d.Id "" env.DefaultLongTimeout w.remote = (none, r1))
    (hdesc : env.DescribeDBReadWriteSplittingConnection d.Id r1 = (Except.ok object, r2))
    (hobj : readObject env d object = some d1) :
    resourceAlicloudDBReadWriteSplittingConnectionRead env d w =
      Result.ok d1
        { remote := r2,
          log := w.log ++ [Call.wait "DBReadWriteSplitting" d.Id "" env.DefaultLongTimeout,
            Call.describe "DBReadWriteSplittingConnection" d.Id] } := by
  simp [resourceAlicloudDBReadWriteSplittingConnectionRead, waitCall, hwait, hdesc, hobj]

/-- The weight block of `readObject`: with `Port` and `MaxDelayTime` absent,
null or strings, a declared weight map, a well-formed server list and a string
`ConnectionString`, the mapping completes and leaves the merged map under
`weight`. -/
theorem readObject_weight {ρ : Type} (env : Env ρ) (d : ResourceData) (object : Obj)
    (documented : Obj) (entries : List Val) (cs : String)
    (hport : stringOrNil object "Port") (hmdt : stringOrNil object "MaxDelayTime")
    (hcs : mapGet object "ConnectionString" = some (Val.str cs))
    (hw : d.GetOk "weight" = some (Val.obj documented))
    (hl : dBInstanceWeightsOf object = some entries)
    (hwf : wellFormedEntries entries) :
    ∃ d1 merged, readObject env d object = some d1 ∧
      mergeDBInstanceWeights documented entries = some merged ∧
      mapGet d1.vals "weight" = some (Val.obj merged) := by
  obtain ⟨merged, hm⟩ := merge_total entries documented hwf
  have hd0 := (readStrings_spec d object).2 "weight" (by decide) (by decide) (by decide)
  obtain ⟨dA, hA, _, hAk⟩ := readIntField_spec (readStrings d object) object "Port" "port" hport
  obtain ⟨dB, hB, _, hBk⟩ := readIntField_spec dA object "MaxDelayTime" "max_delay_time" hmdt
  have hwB : dB.GetOk "weight" = some (Val.obj documented) := by
    have hk : mapGet dB.vals "weight" = mapGet d.vals "weight" := by
      rw [hBk "weight" (by decide), hAk "weight" (by decide), hd0]
    rw [GetOk_congr d dB "weight" hk]
    exact hw
  have hC := readWeight_spec dB object documented merged entries hwB hl hm
  obtain ⟨dD, hD, _, hDk⟩ := readConnectionPfx_spec env
    (dB.Set "weight" (some (Val.obj merged))) object cs hcs
  refine ⟨dD, merged, ?_, hm, ?_⟩
  · simp [readObject, readFields, hA, hB, hC, hD]
  · rw [hDk "weight" (by decide)]
    exact mapGet_Set_self _ _ _

theorem merge_reported (pre post : List Val) (config : Obj) (id : String)
    (documented merged : Obj)
    (hpre : omitsId pre id) (hpost : omitsId post id)
    (hid : mapGet config "DBInstanceId" = some (Val.str id))
    (hm : mergeDBInstanceWeights documented (pre ++ Val.obj config :: post) = some merged) :
    (isStr (mapGet config "Availability") "Available" = false → mapGet merged id = none) ∧
    (isStr (mapGet config "Availability") "Available" = true →
      isStr (mapGet config "Weight") "0" = false → (mapGet documented id).isSome = true →
      mapGet merged id = some ((mapGet config "Weight").getD Val.null)) ∧
    (isStr (mapGet config "Availability") "Available" = true →
      isStr (mapGet config "Weight") "0" = true → mapGet merged id = mapGet documented id) ∧
    (mapGet documented id = none → mapGet merged id = none) := by
  rw [merge_append] at hm
  cases h1 : mergeDBInstanceWeights documented pre with
  | none => simp [h1] at hm
  | some m1 =>
    rw [h1] at hm
    simp only [Option.some_bind] at hm
    have hm1 : mapGet m1 id = mapGet documented id := merge_omits pre id documented m1 hpre h1
    rw [merge_cons m1 config post id hid] at hm
    have hfin := merge_omits post id _ merged hpost hm
    refine ⟨?_, ?_, ?_, ?_⟩
    · intro ha
      rw [hfin]
      simp [ha, mapGet_mapDelete_self]
    · intro ha hw hd
      rw [hfin]
      obtain ⟨v, hv⟩ := Option.isSome_iff_exists.mp hd
      rw [← hm1] at hv
      simp [ha, hw, hv, mapSetI, mapGet_mapSet_self]
    · intro ha hw
      rw [hfin]
      simp [ha, hw, hm1]
    · intro hd
      rw [hfin]
      rw [← hm1] at hd
      by_cases ha : isStr (mapGet config "Availability") "Available" = true
      · by_cases hw : isStr (mapGet config "Weight") "0" = true
        · simp [ha, hw, hd]
        · simp [ha, hw, hd]
      · simp [ha, mapGet_mapDelete_self]

/-- C1 (as amended): in Read of the read-write-splitting connection, with a
declared weight map and a server list of maps with string IDs, Read returns
nil and writes a merged map under `weight` in which a declared instance ID the
server list omits keeps its declared weight (it is not dropped), an ID the
list reports once with an Availability other than `Available` is absent, and
a declared ID the list reports once as `Available` with a weight other than
`"0"` carries the server's weight. -/
theorem readWriteSplittingRead_weight_merge {ρ : Type} (env : Env ρ) (d : ResourceData)
    (w : World ρ) (r1 r2 : ρ) (object documented : Obj) (entries : List Val) (cs : String)
    (hwait : env.WaitForDBReadWriteSplitting d.Id "" env.DefaultLongTimeout w.remote = (none, r1))
    (hdesc : env.DescribeDBReadWriteSplittingConnection d.Id r1 = (Except.ok object, r2))
    (hport : stringOrNil object "Port") (hmdt : stringOrNil object "MaxDelayTime")
    (hcs : mapGet object "ConnectionString" = some (Val.str cs))
    (hw : d.GetOk "weight" = some (Val.obj documented))
    (hl : dBInstanceWeightsOf object = some entries)
    (hwf : wellFormedEntries entries) :
    ∃ d1 w1 merged,
      resourceAlicloudDBReadWriteSplittingConnectionRead env d w = Result.ok d1 w1 ∧
      mapGet d1.vals "weight" = some (Val.obj merged) ∧
      (∀ id, omitsId entries id → mapGet merged id = mapGet documented id) ∧
      (∀ id pre config post, entries = pre ++ Val.obj config :: post →
        omitsId pre id → omitsId post id →
        mapGet config "DBInstanceId" = some (Val.str id) →
        (isStr (mapGet config "Availability") "Available" = false → mapGet merged id = none) ∧
        (isStr (mapGet config "Availability") "Available" = true →
          isStr (mapGet config "Weight") "0" = false → (mapGet documented id).isSome = true →
          mapGet merged id = some ((mapGet config "Weight").getD Val.null))) := by
  obtain ⟨d1, merged, hobj, hm, hget⟩ :=
    readObject_weight env d object documented entries cs hport hmdt hcs hw hl hwf
  refine ⟨d1, _, merged, readWriteSplittingRead_ok env d d1 w r1 r2 object hwait hdesc hobj,
    hget, ?_, ?_⟩
  · intro id hom
    exact merge_omits entries id documented merged hom hm
  · intro id pre config post he hpre hpost hid
    rw [he] at hm
    have h := merge_reported pre post config id documented merged hpre hpost hid hm
    exact ⟨h.1, h.2.1⟩

/-- Instance of `readWriteSplittingRead_weight_merge` on `sampleConnectionData`. -/
theorem readWriteSplittingRead_weight_merge_witness :
    ∃ d1 w1 merged,
      resourceAlicloudDBReadWriteSplittingConnectionRead sampleConnectionEnv
        sampleConnectionData (World.start []) = Result.ok d1 w1 ∧
      mapGet d1.vals "weight" = some (Val.obj merged) ∧
      (∀ id, omitsId sampleEntries id → mapGet merged id = mapGet sampleWeights id) ∧
      (∀ id pre config post, sampleEntries = pre ++ Val.obj config :: post →
        omitsId pre id → omitsId post id →
        mapGet config "DBInstanceId" = some (Val.str id) →
        (isStr (mapGet config "Availability") "Available" = false → mapGet merged id = none) ∧
        (isStr (mapGet config "Availability") "Available" = true →
          isStr (mapGet config "Weight") "0" = false → (mapGet sampleWeights id).isSome = true →
          mapGet merged id = some ((mapGet config "Weight").getD Val.null))) :=
  readWriteSplittingRead_weight_merge sampleConnectionEnv sampleConnectionData (World.start [])
    [] [] (sampleConnection "pfx-1.rw.rds.aliyuncs.com" sampleEntries) sampleWeights
    sampleEntries "pfx-1.rw.rds.aliyuncs.com" rfl rfl
    (Or.inr (Or.inr ⟨"3306", rfl⟩)) (Or.inr (Or.inr ⟨"30", rfl⟩)) rfl rfl rfl (by decide)

/-- C1 (as stated) fails: the server list `sampleEntries` omits the declared
instance `a`, and Read keeps `a` with its declared weight; it reports the
declared instance `c` with the changed weight 9, and Read drops `c`. -/
theorem readWriteSplittingRead_keeps_omitted_instance :
    omitsId sampleEntries "a" ∧
    mapGet sampleWeights "a" = some (Val.str "1") ∧
    (resourceAlicloudDBReadWriteSplittingConnectionRead sampleConnectionEnv
      sampleConnectionData (World.start [])).isOk = true ∧
    (resourceAlicloudDBReadWriteSplittingConnectionRead sampleConnectionEnv
      sampleConnectionData (World.start [])).weightOf "a" = some (Val.str "1") ∧
    (resourceAlicloudDBReadWriteSplittingConnectionRead sampleConnectionEnv
      sampleConnectionData (World.start [])).weightOf "c" = none :=
  ⟨by decide, rfl, rfl, rfl, rfl⟩

/-! ## The status mapping of the aggregator -/

/-- C3: `convertConfigAggregatorStatusResponse` maps the code 0 to `Creating`,
1 to `Normal` and 2 to `Deleting`, maps every other value (another integer, or
a value that is no `int`) to the empty string, is total, and the three labels
are pairwise distinct. -/
theorem convertConfigAggregatorStatusResponse_total :
    convertConfigAggregatorStatusResponse (Val.int 0) = "Creating" ∧
    convertConfigAggregatorStatusResponse (Val.int 1) = "Normal" ∧
    convertConfigAggregatorStatusResponse (Val.int 2) = "Deleting" ∧
    (∀ source : Val, source = Val.int 0 ∨ source = Val.int 1 ∨ source = Val.int 2 ∨
      convertConfigAggregatorStatusResponse source = "") ∧
    (∀ n : Int, n ≠ 0 ∧ n ≠ 1 ∧ n ≠ 2 ↔ convertConfigAggregatorStatusResponse (Val.int n) = "") ∧
    convertConfigAggregatorStatusResponse (Val.str "0") = "" ∧
    convertConfigAggregatorStatusResponse (Val.num 0) = "" ∧
    convertConfigAggregatorStatusResponse Val.null = "" ∧
    ("Creating" ≠ "Normal" ∧ "Creating" ≠ "Deleting" ∧ "Normal" ≠ "Deleting") := by
  have hall : ∀ source : Val, source = Val.int 0 ∨ source = Val.int 1 ∨ source = Val.int 2 ∨
      convertConfigAggregatorStatusResponse source = "" := by
    intro source
    unfold convertConfigAggregatorStatusResponse
    split
    · exact Or.inl rfl
    · exact Or.inr (Or.inr (Or.inl rfl))
    · exact Or.inr (Or.inl rfl)
    · exact Or.inr (Or.inr (Or.inr rfl))
  refine ⟨rfl, rfl, rfl, hall, ?_, rfl, rfl, rfl, by decide, by decide, by decide⟩
  intro n
  constructor
  · rintro ⟨h0, h1, h2⟩
    rcases hall (Val.int n) with h | h | h | h
    · exact absurd (Val.int.inj h) h0
    · exact absurd (Val.int.inj h) h1
    · exact absurd (Val.int.inj h) h2
    · exact h
  · intro h
    refine ⟨?_, ?_, ?_⟩ <;> intro hn <;> subst hn <;> revert h <;> decide

/-! ## Read and a failed lookup -/

/-- C5: when the describe lookup of Read returns an error (for the
read-write-splitting connection after a successful wait), an error classified
as not-found makes Read set the ID to the empty string, return nil and leave
every other part of the resource data as it was; any other error is returned
wrapped and the resource data, its ID included, is unchanged. -/
theorem read_lookup_error {ρ : Type} (env : Env ρ) (d : ResourceData) (w : World ρ)
    (err : GoError) :
    (∀ r, env.DescribeBrainIndustrialPidOrganization d.Id w.remote = (Except.error err, r) →
      resourceAlicloudBrainIndustrialPidOrganizationRead env d w =
        (if env.NotFoundError err then
          Result.ok { d with id := "" }
            { remote := r, log := w.log ++ [Call.describe "BrainIndustrialPidOrganization" d.Id] }
        else
          Result.fail (GoError.wrap err) d
            { remote := r, log := w.log ++ [Call.describe "BrainIndustrialPidOrganization" d.Id] })) ∧
    (∀ r, env.DescribeConfigAggregator d.Id w.remote = (Except.error err, r) →
      resourceAlicloudConfigAggregatorRead env d w =
        (if env.NotFoundError err then
          Result.ok { d with id := "" }
            { remote := r, log := w.log ++ [Call.describe "ConfigAggregator" d.Id] }
        else
          Result.fail (GoError.wrap err) d
            { remote := r, log := w.log ++ [Call.describe "ConfigAggregator" d.Id] })) ∧
    (∀ r1 r2,
      env.WaitForDBReadWriteSplitting d.Id "" env.DefaultLongTimeout w.remote = (none, r1) →
      env.DescribeDBReadWriteSplittingConnection d.Id r1 = (Except.error err, r2) →
      resourceAlicloudDBReadWriteSplittingConnectionRead env d w =
        (if env.NotFoundError err then
          Result.ok { d with id := "" }
            { remote := r2,
              log := w.log ++ [Call.wait "DBReadWriteSplitting" d.Id "" env.DefaultLongTimeout,
                Call.describe "DBReadWriteSplittingConnection" d.Id] }
        else
          Result.fail (GoError.wrap err) d
            { remote := r2,
              log := w.log ++ [Call.wait "DBReadWriteSplitting" d.Id "" env.DefaultLongTimeout,
                Call.describe "DBReadWriteSplittingConnection" d.Id] })) := by
  refine ⟨?_, ?_, ?_⟩
  · intro r h
    simp only [resourceAlicloudBrainIndustrialPidOrganizationRead, h, ResourceData.SetId]
  · intro r h
    simp only [resourceAlicloudConfigAggregatorRead, h, ResourceData.SetId]
  · intro r1 r2 hw h
    simp [resourceAlicloudDBReadWriteSplittingConnectionRead, waitCall, hw, h, ResourceData.SetId]

/-- Instance of `read_lookup_error`: the PID organization `org-1` whose lookup
answers `NotFound`. -/
theorem read_lookup_error_witness :
    resourceAlicloudBrainIndustrialPidOrganizationRead
        (scriptEnv (Except.error (GoError.sdk "NotFound" "")) none)
        (sampleData "org-1" [("pid_organization_name", Val.str "X")] []) (World.start []) =
      (if (scriptEnv (Except.error (GoError.sdk "NotFound" "")) none).NotFoundError
            (GoError.sdk "NotFound" "") then
        Result.ok { sampleData "org-1" [("pid_organization_name", Val.str "X")] [] with id := "" }
          { remote := [], log := [] ++ [Call.describe "BrainIndustrialPidOrganization" "org-1"] }
      else
        Result.fail (GoError.wrap (GoError.sdk "NotFound" ""))
          (sampleData "org-1" [("pid_organization_name", Val.str "X")] [])
          { remote := [], log := [] ++ [Call.describe "BrainIndustrialPidOrganization" "org-1"] }) :=
  (read_lookup_error (scriptEnv (Except.error (GoError.sdk "NotFound" "")) none)
    (sampleData "org-1" [("pid_organization_name", Val.str "X")] []) (World.start [])
    (GoError.sdk "NotFound" "")).1 [] rfl

/-! ## The retried call -/

theorem rpcAttempt_eq {ρ : Type} (env : Env ρ) (product version action : String) (request : Obj)
    (autoRetry : Bool) (onError : GoError → Option RetryError) (w : World ρ) (resp : Option Obj) :
    rpcAttempt env product version action request autoRetry onError (w, resp) =
      (attemptReturn onError (env.RpcPost product version action request autoRetry w.remote).1,
        ({ remote := (env.RpcPost product version action request autoRetry w.remote).2,
           log := w.log ++ [Call.rpc product version action request] },
         responseOf (env.RpcPost product version action request autoRetry w.remote).1)) := by
  unfold rpcAttempt rpcPost
  cases h : (env.RpcPost product version action request autoRetry w.remote).1 <;>
    simp [attemptReturn, responseOf, h]

/-- The run of the retry loop on answers of which all but the last ask for a
retry: with room for all of them, the call is issued once per answer, and the
result is that of the last answer. -/
theorem retryLoop_run {ρ : Type} (env : Env ρ) (product version action : String) (request : Obj)
    (autoRetry : Bool) (onError : GoError → Option RetryError) :
    ∀ (pending : List (Except GoError Obj)) (final : Except GoError Obj) (n : Nat)
      (last : GoError) (w : World ρ) (resp : Option Obj) (s1 : ρ),
      pending.length < n →
      (∀ a ∈ pending, isRetryable onError a = true) →
      isRetryable onError final = false →
      rpcAnswers env product version action request autoRetry (pending.length + 1) w.remote =
        (pending ++ [final], s1) →
      retryLoop (rpcAttempt env product version action request autoRetry onError) n last (w, resp) =
        (finalError onError final,
          ({ remote := s1,
             log := w.log ++ List.replicate (pending.length + 1)
               (Call.rpc product version action request) },
           responseOf final)) := by
  intro pending
  induction pending with
  | nil =>
    intro final n last w resp s1 hn _ hfin hans
    obtain ⟨m, rfl⟩ : ∃ m, n = m + 1 := ⟨n - 1, by simp at hn; omega⟩
    simp [rpcAnswers] at hans
    obtain ⟨h1, h2⟩ := hans
    rw [retryLoop, rpcAttempt_eq, h1, h2]
    unfold isRetryable at hfin
    unfold finalError
    cases hr : attemptReturn onError final with
    | none => simp
    | some re =>
      cases re with
      | RetryableError e => simp [hr] at hfin
      | NonRetryableError e => simp
  | cons a rest ih =>
    intro final n last w resp s1 hn hpend hfin hans
    obtain ⟨m, rfl⟩ : ∃ m, n = m + 1 := ⟨n - 1, by simp at hn; omega⟩
    rw [List.length_cons, rpcAnswers] at hans
    simp only [List.cons_append, Prod.mk.injEq, List.cons.injEq] at hans
    obtain ⟨⟨h1, h2⟩, h3⟩ := hans
    have ha := hpend a (List.mem_cons_self _ _)
    unfold isRetryable at ha
    rw [retryLoop, rpcAttempt_eq, h1]
    cases hr : attemptReturn onError a with
    | none => simp [hr] at ha
    | some re =>
      cases re with
      | NonRetryableError e => simp [hr] at ha
      | RetryableError e =>
        simp only
        rw [ih final m e _ (responseOf a) s1 (by simp at hn; omega)
          (fun x hx => hpend x (List.mem_cons_of_mem _ hx)) hfin
          (Prod.ext h2 h3)]
        simp [List.replicate_succ]

/-- A retried call whose first answer asks for no retry: one call, and the
result of that answer. -/
theorem Retry_first {ρ : Type} (env : Env ρ) (product version action : String) (request : Obj)
    (autoRetry : Bool) (onError : GoError → Option RetryError) (n : Nat) (w : World ρ)
    (final : Except GoError Obj) (s1 : ρ) (hn : 0 < n)
    (hans : env.RpcPost product version action request autoRetry w.remote = (final, s1))
    (hfin : isRetryable onError final = false) :
    Retry n (rpcAttempt env product version action request autoRetry onError) (w, none) =
      (finalError onError final,
        ({ remote := s1, log := w.log ++ [Call.rpc product version action request] },
         responseOf final)) := by
  have h := retryLoop_run env product version action request autoRetry onError [] final n
    GoError.timeout w none s1 (by simpa using hn) (by simp) hfin (by simp [rpcAnswers, hans])
  simpa [Retry] using h

/-! ## Delete of a resource that is already gone -/

/-- C2 (as amended): when the delete call answers with an error that is not
retried, Delete of the read-write-splitting connection returns nil for an
error classified as not-found or carrying `InvalidRwSplitNetType.NotFound`,
provided the wait for the deleted status that follows succeeds; Delete of the
aggregator returns nil exactly for an error expected under `AccountNotExisted`
or `Invalid.AggregatorIds.Empty` and returns every other such error wrapped. -/
theorem delete_already_gone {ρ : Type} (env : Env ρ) (d : ResourceData) (w : World ρ)
    (err : GoError) :
    (∀ s1 s2, 0 < env.attempts (30 * 60) →
      env.RpcPost "Rds" "2014-08-15" "ReleaseReadWriteSplittingConnection"
        (readWriteSplittingDeleteRequest env d) false w.remote = (Except.error err, s1) →
      (env.IsExpectedErrors err env.OperationDeniedDBStatus || env.NeedRetry err) = false →
      (env.NotFoundError err
        || env.IsExpectedErrors err ["InvalidRwSplitNetType.NotFound"]) = true →
      env.WaitForDBReadWriteSplitting d.Id env.Deleted env.DefaultLongTimeout s1 = (none, s2) →
      resourceAlicloudDBReadWriteSplittingConnectionDelete env d w =
        Result.ok d
          { remote := s2,
            log := w.log ++
              [Call.rpc "Rds" "2014-08-15" "ReleaseReadWriteSplittingConnection"
                (readWriteSplittingDeleteRequest env d),
               Call.wait "DBReadWriteSplitting" d.Id env.Deleted env.DefaultLongTimeout] }) ∧
    (∀ s1, 0 < env.attempts (d.Timeout TimeoutKey.TimeoutDelete) →
      env.RpcPost "Config" "2020-09-07" "DeleteAggregators"
        (configAggregatorDeleteRequest env d) true w.remote = (Except.error err, s1) →
      env.NeedRetry err = false →
      resourceAlicloudConfigAggregatorDelete env d w =
        (if env.IsExpectedErrors err ["AccountNotExisted", "Invalid.AggregatorIds.Empty"] then
          Result.ok d
            { remote := s1,
              log := w.log ++ [Call.rpc "Config" "2020-09-07" "DeleteAggregators"
                (configAggregatorDeleteRequest env d)] }
        else
          Result.fail
            (WrapErrorf err DefaultErrorMsg [d.Id, "DeleteAggregators", AlibabaCloudSdkGoERROR]) d
            { remote := s1,
              log := w.log ++ [Call.rpc "Config" "2020-09-07" "DeleteAggregators"
                (configAggregatorDeleteRequest env d)] })) := by
  constructor
  · intro s1 s2 hn hans htr hgone hwait
    have hfin : isRetryable (readWriteSplittingDeleteOnError env) (Except.error err) = false := by
      simp only [isRetryable, attemptReturn, readWriteSplittingDeleteOnError, htr, hgone]
      simp
    have hfe : finalError (readWriteSplittingDeleteOnError env) (Except.error err) = none := by
      simp only [finalError, attemptReturn, readWriteSplittingDeleteOnError, htr, hgone]
      simp
    have hr := Retry_first env "Rds" "2014-08-15" "ReleaseReadWriteSplittingConnection"
      (readWriteSplittingDeleteRequest env d) false (readWriteSplittingDeleteOnError env)
      (env.attempts (30 * 60)) w (Except.error err) s1 hn hans hfin
    rw [hfe] at hr
    unfold resourceAlicloudDBReadWriteSplittingConnectionDelete
    simp only []
    rw [hr]
    simp [waitCall, hwait]
  · intro s1 hn hans htr
    have hfin : isRetryable (needRetryOnError env) (Except.error err) = false := by
      simp [isRetryable, attemptReturn, needRetryOnError, htr]
    have hfe : finalError (needRetryOnError env) (Except.error err) = some err := by
      simp [finalError, attemptReturn, needRetryOnError, htr]
    have hr := Retry_first env "Config" "2020-09-07" "DeleteAggregators"
      (configAggregatorDeleteRequest env d) true (needRetryOnError env)
      (env.attempts (d.Timeout TimeoutKey.TimeoutDelete)) w (Except.error err) s1 hn hans hfin
    rw [hfe] at hr
    unfold resourceAlicloudConfigAggregatorDelete
    simp only []
    rw [hr]

/-- Instance of `delete_already_gone`: Delete of the connection `rm-1` whose
release call answers `InvalidRwSplitNetType.NotFound`. -/
theorem delete_already_gone_witness :
    resourceAlicloudDBReadWriteSplittingConnectionDelete goneEnv (sampleData "rm-1" [] [])
        (World.start [Except.error (GoError.sdk "InvalidRwSplitNetType.NotFound" "")]) =
      Result.ok (sampleData "rm-1" [] [])
        { remote := [],
          log := [] ++
            [Call.rpc "Rds" "2014-08-15" "ReleaseReadWriteSplittingConnection"
              (readWriteSplittingDeleteRequest goneEnv (sampleData "rm-1" [] [])),
             Call.wait "DBReadWriteSplitting" "rm-1" goneEnv.Deleted goneEnv.DefaultLongTimeout] } :=
  (delete_already_gone goneEnv (sampleData "rm-1" [] [])
    (World.start [Except.error (GoError.sdk "InvalidRwSplitNetType.NotFound" "")])
    (GoError.sdk "InvalidRwSplitNetType.NotFound" "")).1 [] [] (by decide) rfl rfl rfl rfl

/-- C2 (as stated) fails: a second Delete of the PID organization `org-1`, whose
delete call is answered with a not-found error, returns that error wrapped; so
does Delete of the aggregator `ca-1` on a not-found error whose code is not
one of its two expected codes. -/
theorem delete_not_found_returns_error :
    goneEnv.NotFoundError (GoError.sdk "NotFound" "") = true ∧
    goneEnv.NeedRetry (GoError.sdk "NotFound" "") = false ∧
    (resourceAlicloudBrainIndustrialPidOrganizationDelete goneEnv (sampleData "org-1" [] [])
        (World.start [Except.error (GoError.sdk "NotFound" "")])).err =
      some (GoError.wrapf (GoError.sdk "NotFound" "") DefaultErrorMsg
        ["org-1", "DeletePidOrganization", AlibabaCloudSdkGoERROR]) ∧
    (resourceAlicloudConfigAggregatorDelete goneEnv (sampleData "ca-1" [] [])
        (World.start [Except.error (GoError.sdk "NotFound" "")])).err =
      some (GoError.wrapf (GoError.sdk "NotFound" "") DefaultErrorMsg
        ["ca-1", "DeleteAggregators", AlibabaCloudSdkGoERROR]) := by
  refine ⟨by decide, by decide, by decide, by decide⟩

/-! ## The prefix extraction -/

theorem findSplit_found (suffix : List Char → Bool) (P S : List Char) (hP : P ≠ [])
    (hclass : P.all connectionClassChar = true) (hS : suffix S = true)
    (hsfx : ∀ c t, suffix (c :: t) = true → connectionClassChar c = false) :
    ∀ n, P.length ≤ n → n ≤ (P ++ S).length → findSplit suffix (P ++ S) n = some P := by
  intro n
  induction n with
  | zero =>
    intro h _
    exact absurd (List.length_eq_zero.mp (Nat.le_zero.mp h)) hP
  | succ n ih =>
    intro hle hlen
    by_cases heq : P.length = n + 1
    · have ht : (P ++ S).take (n + 1) = P := by
        rw [← heq]
        exact List.take_left' rfl
      have hd : (P ++ S).drop (n + 1) = S := by
        rw [← heq]
        exact List.drop_left' rfl
      simp [findSplit, ht, hd, hclass, hS]
    · have hlt : P.length ≤ n := by omega
      cases S with
      | nil =>
        simp at hlen
        omega
      | cons c t =>
        have hc : connectionClassChar c = false := hsfx c t hS
        have hmem : c ∈ (P ++ c :: t).take (n + 1) := by
          rw [List.take_append_eq_append_take]
          apply List.mem_append_right
          have : n + 1 - P.length = (n - P.length) + 1 := by omega
          rw [this, List.take_succ_cons]
          exact List.mem_cons_self _ _
        have hall : ((P ++ c :: t).take (n + 1)).all connectionClassChar = false := by
          rw [List.all_eq_false]
          exact ⟨c, hmem, by simp [hc]⟩
        rw [findSplit]
        simp only [hall, Bool.false_and]
        exact ih hlt (by omega)

theorem findSplit_sound (suffix : List Char → Bool) (s : List Char) :
    ∀ n p, n ≤ s.length → findSplit suffix s n = some p →
      ∃ k, 0 < k ∧ k ≤ s.length ∧ p = s.take k ∧ p.all connectionClassChar = true ∧
        suffix (s.drop k) = true := by
  intro n
  induction n with
  | zero => intro p _ h; simp [findSplit] at h
  | succ n ih =>
    intro p hle h
    rw [findSplit] at h
    split at h
    · rename_i hcond
      simp only [Bool.and_eq_true] at hcond
      simp only [Option.some.injEq] at h
      exact ⟨n + 1, by omega, hle, h.symm, by rw [← h]; exact hcond.1, hcond.2⟩
    · exact ih p (by omega) h

/-- The value of `FindStringSubmatch` on a string of the form `P ++ S`. -/
theorem FindStringSubmatch_found (suffix : List Char → Bool) (P S : String) (hP : P ≠ "")
    (hclass : P.data.all connectionClassChar = true) (hS : suffix S.data = true)
    (hsfx : ∀ c t, suffix (c :: t) = true → connectionClassChar c = false) :
    FindStringSubmatch suffix (P ++ S) = some P := by
  have hP1 : P.data ≠ [] := by
    intro h
    apply hP
    exact String.ext h
  have h := findSplit_found suffix P.data S.data hP1 hclass hS hsfx (P.data ++ S.data).length
    (by simp) (le_refl _)
  unfold FindStringSubmatch
  rw [String.data_append, h]
  rfl

/-- A match of `FindStringSubmatch` splits the string into a first part in the
class and a rest the suffix expression matches. -/
theorem FindStringSubmatch_sound (suffix : List Char → Bool) (cs p : String)
    (h : FindStringSubmatch suffix cs = some p) :
    ∃ S : String, cs = p ++ S ∧ p ≠ "" ∧ p.data.all connectionClassChar = true ∧
      suffix S.data = true := by
  unfold FindStringSubmatch at h
  cases hf : findSplit suffix cs.data cs.data.length with
  | none =>
    rw [hf] at h
    cases h
  | some q =>
    rw [hf] at h
    have hpq : p = String.mk q := by
      injection h with h
      exact h.symm
    obtain ⟨k, hk0, hkl, hq, hall, hsuf⟩ := findSplit_sound suffix cs.data _ q (le_refl _) hf
    refine ⟨String.mk (cs.data.drop k), ?_, ?_, ?_, ?_⟩
    · apply String.ext
      rw [String.data_append, hpq, hq]
      exact (List.take_append_drop k cs.data).symm
    · intro hp
      rw [hpq] at hp
      have hnil : q = [] := congrArg String.data hp
      rw [hq] at hnil
      have hlen := congrArg List.length hnil
      rw [List.length_take] at hlen
      simp only [List.length_nil] at hlen
      omega
    · rw [hpq]
      exact hall
    · exact hsuf

theorem readIntField_preserves (d d1 : ResourceData) (object : Obj) (key field : String)
    (h : readIntField d object key field = some d1) :
    ∀ k, field ≠ k → mapGet d1.vals k = mapGet d.vals k := by
  intro k hk
  unfold readIntField at h
  split at h
  · injection h with h; rw [← h]
  · injection h with h; rw [← h]
  · split at h
    · injection h with h
      rw [← h]
      exact mapGet_Set_ne d field k _ hk
    · injection h with h; rw [← h]
  · cases h

theorem readWeight_preserves (d d1 : ResourceData) (object : Obj)
    (h : readWeight d object = some d1) :
    ∀ k, "weight" ≠ k → mapGet d1.vals k = mapGet d.vals k := by
  intro k hk
  unfold readWeight at h
  split at h
  · injection h with h; rw [← h]
  · split at h
    · cases h
    · split at h
      · cases h
      · injection h with h
        rw [← h]
        exact mapGet_Set_ne d "weight" k _ hk
  · cases h

/-- Lines 142 to 175 of Read leave `connection_prefix` as it was. -/
theorem readFields_preserves_pfx (d d3 : ResourceData) (object : Obj)
    (h : readFields d object = some d3) :
    mapGet d3.vals "connection_prefix" = mapGet d.vals "connection_prefix" := by
  unfold readFields at h
  cases hA : readIntField (readStrings d object) object "Port" "port" with
  | none => simp [hA] at h
  | some dA =>
    cases hB : readIntField dA object "MaxDelayTime" "max_delay_time" with
    | none => simp [hA, hB] at h
    | some dB =>
      simp only [hA, hB, Option.some_bind] at h
      rw [readWeight_preserves dB d3 object h _ (by decide),
        readIntField_preserves dA dB object _ _ hB _ (by decide),
        readIntField_preserves _ dA object _ _ hA _ (by decide)]
      exact (readStrings_spec d object).2 _ (by decide) (by decide) (by decide)

/-- C10: in Read of the read-write-splitting connection, with a string
`ConnectionString` and the fields before it mapped, a connection string of the
form `P ++ S`, with `P` a non-empty string over letters, digits, `-` and `_`
and `S` matched by the suffix expression, sets `connection_prefix` to exactly
`P`; a connection string not of that form leaves `connection_prefix` as it
was.  The suffix expression is a parameter, of which the first part uses that
no match of it starts with a character of the class of `P`. -/
theorem readWriteSplittingRead_connection_pfx {ρ : Type} (env : Env ρ) (d : ResourceData)
    (w : World ρ) (r1 r2 : ρ) (object : Obj) (cs : String)
    (hwait : env.WaitForDBReadWriteSplitting d.Id "" env.DefaultLongTimeout w.remote = (none, r1))
    (hdesc : env.DescribeDBReadWriteSplittingConnection d.Id r1 = (Except.ok object, r2))
    (hcs : mapGet object "ConnectionString" = some (Val.str cs))
    (hfields : (readFields d object).isSome = true) :
    (∀ P S : String, cs = P ++ S → P ≠ "" → P.data.all connectionClassChar = true →
      env.dbConnectionSuffix S.data = true →
      (∀ c t, env.dbConnectionSuffix (c :: t) = true → connectionClassChar c = false) →
      ∃ d1 w1, resourceAlicloudDBReadWriteSplittingConnectionRead env d w = Result.ok d1 w1 ∧
        mapGet d1.vals "connection_prefix" = some (Val.str P)) ∧
    ((¬ ∃ P S : String, cs = P ++ S ∧ P ≠ "" ∧ P.data.all connectionClassChar = true ∧
        env.dbConnectionSuffix S.data = true) →
      ∃ d1 w1, resourceAlicloudDBReadWriteSplittingConnectionRead env d w = Result.ok d1 w1 ∧
        mapGet d1.vals "connection_prefix" = mapGet d.vals "connection_prefix") := by
  obtain ⟨d3, hd3⟩ := Option.isSome_iff_exists.mp hfields
  constructor
  · intro P S hform hP hclass hS hsfx
    have hf : FindStringSubmatch env.dbConnectionSuffix cs = some P := by
      rw [hform]
      exact FindStringSubmatch_found env.dbConnectionSuffix P S hP hclass hS hsfx
    have hobj : readObject env d object = some (d3.Set "connection_prefix" (some (Val.str P))) := by
      simp [readObject, hd3, readConnectionPfx, hcs, hf]
    exact ⟨_, _, readWriteSplittingRead_ok env d _ w r1 r2 object hwait hdesc hobj,
      mapGet_Set_self _ _ _⟩
  · intro hno
    have hf : FindStringSubmatch env.dbConnectionSuffix cs = none := by
      cases hf : FindStringSubmatch env.dbConnectionSuffix cs with
      | none => rfl
      | some p =>
        obtain ⟨S, h1, h2, h3, h4⟩ := FindStringSubmatch_sound env.dbConnectionSuffix cs p hf
        exact absurd ⟨p, S, h1, h2, h3, h4⟩ hno
    have hobj : readObject env d object = some d3 := by
      simp [readObject, hd3, readConnectionPfx, hcs, hf]
    exact ⟨_, _, readWriteSplittingRead_ok env d _ w r1 r2 object hwait hdesc hobj,
      readFields_preserves_pfx d d3 object hd3⟩

/-- Instance of `readWriteSplittingRead_connection_pfx`: the connection string
`pfx-1.rw.rds.aliyuncs.com` sets `connection_prefix` to `pfx-1`. -/
theorem readWriteSplittingRead_connection_pfx_witness :
    ∃ d1 w1, resourceAlicloudDBReadWriteSplittingConnectionRead sampleConnectionEnv
        sampleConnectionData (World.start []) = Result.ok d1 w1 ∧
      mapGet d1.vals "connection_prefix" = some (Val.str "pfx-1") :=
  (readWriteSplittingRead_connection_pfx sampleConnectionEnv sampleConnectionData
    (World.start []) [] [] (sampleConnection "pfx-1.rw.rds.aliyuncs.com" sampleEntries)
    "pfx-1.rw.rds.aliyuncs.com" rfl rfl rfl rfl).1 "pfx-1" ".rw.rds.aliyuncs.com"
    (by decide) (by decide) (by decide) (by decide)
    (by
      intro c t h
      have h1 : c :: t = ".rw.rds.aliyuncs.com".data := of_decide_eq_true h
      have h2 : c = '.' := (List.cons.inj h1).1
      rw [h2]
      decide)

/-! ## Create and Read of the PID organization -/

theorem pidOrganizationCreateRequest_name {ρ : Type} (env : Env ρ) (d : ResourceData) :
    mapGet (pidOrganizationCreateRequest env d) "OrganizationName" =
      some (Val.str (d.GetString "pid_organization_name")) := by
  unfold pidOrganizationCreateRequest
  simp only []
  rw [mapGet_mapSet_ne _ _ _ _ (by decide), mapGet_mapSet_self]

/-- C9: against a remote that answers `CreatePidOrganization` with an
`OrganizationId` and answers the describe of that ID with the
`OrganizationName` it received in the request, Create with
`pid_organization_name = X` returns nil, sets the ID to that `OrganizationId`
and leaves `pid_organization_name` equal to `X`, and a Read after it returns
nil with `pid_organization_name` equal to `X` again. -/
theorem pidOrganization_create_read {ρ : Type} (env : Env ρ) (d : ResourceData) (w : World ρ)
    (X oid : String) (response object1 object2 : Obj) (s1 s2 s3 : ρ)
    (hname : d.GetString "pid_organization_name" = X)
    (hn : 0 < env.attempts (d.Timeout TimeoutKey.TimeoutUpdate))
    (hcreate : env.RpcPost "brain-industrial" "2020-09-20" "CreatePidOrganization"
      (pidOrganizationCreateRequest env d) true w.remote = (Except.ok response, s1))
    (hid : mapGet response "OrganizationId" = some (Val.str oid))
    (hdesc1 : env.DescribeBrainIndustrialPidOrganization oid s1 = (Except.ok object1, s2))
    (hstored1 : mapGet object1 "OrganizationName" =
      mapGet (pidOrganizationCreateRequest env d) "OrganizationName")
    (hdesc2 : env.DescribeBrainIndustrialPidOrganization oid s2 = (Except.ok object2, s3))
    (hstored2 : mapGet object2 "OrganizationName" =
      mapGet (pidOrganizationCreateRequest env d) "OrganizationName") :
    ∃ d1 w1 d2 w2,
      resourceAlicloudBrainIndustrialPidOrganizationCreate env d w = Result.ok d1 w1 ∧
      d1.id = oid ∧ mapGet d1.vals "pid_organization_name" = some (Val.str X) ∧
      resourceAlicloudBrainIndustrialPidOrganizationRead env d1 w1 = Result.ok d2 w2 ∧
      d2.id = oid ∧ mapGet d2.vals "pid_organization_name" = some (Val.str X) := by
  rw [pidOrganizationCreateRequest_name, hname] at hstored1 hstored2
  have hr := Retry_first env "brain-industrial" "2020-09-20" "CreatePidOrganization"
    (pidOrganizationCreateRequest env d) true (needRetryOnError env)
    (env.attempts (d.Timeout TimeoutKey.TimeoutUpdate)) w (Except.ok response) s1 hn hcreate
    (by simp [isRetryable, attemptReturn])
  have hc : resourceAlicloudBrainIndustrialPidOrganizationCreate env d w =
      Result.ok ((d.SetId oid).Set "pid_organization_name" (some (Val.str X)))
        { remote := s2,
          log := (w.log ++ [Call.rpc "brain-industrial" "2020-09-20" "CreatePidOrganization"
            (pidOrganizationCreateRequest env d)]) ++
            [Call.describe "BrainIndustrialPidOrganization" oid] } := by
    unfold resourceAlicloudBrainIndustrialPidOrganizationCreate
    simp only []
    rw [hr]
    simp [finalError, attemptReturn, responseOf, hid, Sprint,
      resourceAlicloudBrainIndustrialPidOrganizationRead, ResourceData.Id, ResourceData.SetId,
      hdesc1, hstored1]
  have hread : ∀ w1 : World ρ, w1.remote = s2 →
      resourceAlicloudBrainIndustrialPidOrganizationRead env
        ((d.SetId oid).Set "pid_organization_name" (some (Val.str X))) w1 =
      Result.ok (((d.SetId oid).Set "pid_organization_name" (some (Val.str X))).Set
          "pid_organization_name" (some (Val.str X)))
        { remote := s3,
          log := w1.log ++ [Call.describe "BrainIndustrialPidOrganization" oid] } := by
    intro w1 hw1
    simp [resourceAlicloudBrainIndustrialPidOrganizationRead, ResourceData.Id, ResourceData.SetId,
      ResourceData.Set, hw1, hdesc2, hstored2]
  exact ⟨_, _, _, _, hc, rfl, mapGet_Set_self _ _ _, hread _ rfl, rfl, mapGet_Set_self _ _ _⟩

/-- Instance of `pidOrganization_create_read` on the store remote, with the
name `X`. -/
theorem pidOrganization_create_read_witness :
    ∃ d1 w1 d2 w2,
      resourceAlicloudBrainIndustrialPidOrganizationCreate pidStoreEnv
        (sampleData "" [("pid_organization_name", Val.str "X")] [])
        (World.start { next := 1, orgs := [] }) = Result.ok d1 w1 ∧
      d1.id = "org-1" ∧ mapGet d1.vals "pid_organization_name" = some (Val.str "X") ∧
      resourceAlicloudBrainIndustrialPidOrganizationRead pidStoreEnv d1 w1 = Result.ok d2 w2 ∧
      d2.id = "org-1" ∧ mapGet d2.vals "pid_organization_name" = some (Val.str "X") :=
  pidOrganization_create_read pidStoreEnv
    (sampleData "" [("pid_organization_name", Val.str "X")] [])
    (World.start { next := 1, orgs := [] }) "X" "org-1"
    [("OrganizationId", Val.str "org-1")] [("OrganizationName", Val.str "X")]
    [("OrganizationName", Val.str "X")]
    { next := 2, orgs := [("org-1", Val.str "X")] }
    { next := 2, orgs := [("org-1", Val.str "X")] }
    { next := 2, orgs := [("org-1", Val.str "X")] }
    rfl (by decide) rfl rfl rfl rfl rfl rfl

/-! ## The requests of an operation -/

theorem rpcCalls_append (l1 l2 : List Call) : rpcCalls (l1 ++ l2) = rpcCalls l1 ++ rpcCalls l2 := by
  induction l1 with
  | nil => rfl
  | cons c rest ih => cases c <;> simp [rpcCalls, ih]

theorem rpcCalls_replicate (product version action : String) (request : Obj) (k : Nat) :
    rpcCalls (List.replicate k (Call.rpc product version action request)) =
      List.replicate k (action, request) := by
  induction k with
  | zero => rfl
  | succ k ih => simp [List.replicate_succ, rpcCalls, ih]

/-- Read of the PID organization calls no `RpcPost`. -/
theorem pidOrganizationRead_rpcCalls {ρ : Type} (env : Env ρ) (d : ResourceData) (w w1 : World ρ)
    (h : (resourceAlicloudBrainIndustrialPidOrganizationRead env d w).world = some w1) :
    rpcCalls w1.log = rpcCalls w.log := by
  unfold resourceAlicloudBrainIndustrialPidOrganizationRead at h
  simp only [] at h
  split at h
  · split at h <;> (simp only [Result.world, Option.some.injEq] at h; rw [← h]; simp [rpcCalls_append, rpcCalls])
  · simp only [Result.world, Option.some.injEq] at h
    rw [← h]
    simp [rpcCalls_append, rpcCalls]

/-- Read of the aggregator calls no `RpcPost`. -/
theorem configAggregatorRead_rpcCalls {ρ : Type} (env : Env ρ) (d : ResourceData) (w w1 : World ρ)
    (h : (resourceAlicloudConfigAggregatorRead env d w).world = some w1) :
    rpcCalls w1.log = rpcCalls w.log := by
  unfold resourceAlicloudConfigAggregatorRead at h
  simp only [] at h
  split at h
  · split at h <;> (simp only [Result.world, Option.some.injEq] at h; rw [← h]; simp [rpcCalls_append, rpcCalls])
  · simp only [Result.world, Option.some.injEq] at h
    rw [← h]
    simp [rpcCalls_append, rpcCalls]

/-- Read of the read-write-splitting connection calls no `RpcPost`. -/
theorem readWriteSplittingRead_rpcCalls {ρ : Type} (env : Env ρ) (d : ResourceData)
    (w w1 : World ρ)
    (h : (resourceAlicloudDBReadWriteSplittingConnectionRead env d w).world = some w1) :
    rpcCalls w1.log = rpcCalls w.log := by
  unfold resourceAlicloudDBReadWriteSplittingConnectionRead waitCall at h
  simp only [] at h
  split at h
  · rename_i err w2 heq
    simp only [Prod.mk.injEq] at heq
    simp only [Result.world, Option.some.injEq] at h
    rw [← h, ← heq.2]
    simp [rpcCalls_append, rpcCalls]
  · rename_i w2 heq
    simp only [Prod.mk.injEq] at heq
    split at h
    · split at h <;>
        (simp only [Result.world, Option.some.injEq] at h; rw [← h, ← heq.2]
         simp [rpcCalls_append, rpcCalls])
    · split at h
      · simp [Result.world] at h
      · simp only [Result.world, Option.some.injEq] at h
        rw [← h, ← heq.2]
        simp [rpcCalls_append, rpcCalls]

/-! ## Update without changes -/

theorem HasChange_nil (d : ResourceData) (k : String) (h : d.changed = []) :
    d.HasChange k = false := by
  simp [ResourceData.HasChange, h]

/-- C4 (as amended): Update on an existing resource with zero changed fields
sends no modifying request: it is the call of Read (for the aggregator once
its accounts are serialised), whose only requests are the lookup and, for the
read-write-splitting connection, the wait before it, and which calls no
`RpcPost`; Update returns what that Read returns. -/
theorem update_without_changes {ρ : Type} (env : Env ρ) (d : ResourceData) (w : World ρ)
    (hch : d.changed = []) :
    resourceAlicloudBrainIndustrialPidOrganizationUpdate env d w =
      resourceAlicloudBrainIndustrialPidOrganizationRead env d w ∧
    (∀ maps v, aggregatorAccountsMaps (d.GetSet "aggregator_accounts") = some maps →
      env.convertArrayObjectToJsonString maps = Except.ok v →
      resourceAlicloudConfigAggregatorUpdate env d w =
        resourceAlicloudConfigAggregatorRead env d w) ∧
    (d.IsNewResource = false →
      resourceAlicloudDBReadWriteSplittingConnectionUpdate env d w =
        resourceAlicloudDBReadWriteSplittingConnectionRead env d w) ∧
    (∀ w1, (resourceAlicloudBrainIndustrialPidOrganizationRead env d w).world = some w1 →
      rpcCalls w1.log = rpcCalls w.log) ∧
    (∀ w1, (resourceAlicloudConfigAggregatorRead env d w).world = some w1 →
      rpcCalls w1.log = rpcCalls w.log) ∧
    (∀ w1, (resourceAlicloudDBReadWriteSplittingConnectionRead env d w).world = some w1 →
      rpcCalls w1.log = rpcCalls w.log) := by
  refine ⟨?_, ?_, ?_, pidOrganizationRead_rpcCalls env d w, configAggregatorRead_rpcCalls env d w,
    readWriteSplittingRead_rpcCalls env d w⟩
  · simp [resourceAlicloudBrainIndustrialPidOrganizationUpdate, HasChange_nil d _ hch]
  · intro maps v hm hv
    simp [resourceAlicloudConfigAggregatorUpdate, hm, hv, configAggregatorUpdateFlag,
      HasChange_nil d _ hch]
  · intro hnew
    simp [resourceAlicloudDBReadWriteSplittingConnectionUpdate, hnew,
      readWriteSplittingUpdateRequest, readWriteSplittingUpdateRequest1,
      readWriteSplittingUpdateFlag, HasChange_nil d _ hch, Except.map]

/-- Instance of `update_without_changes`: the connection `rm-1` with no
changed field. -/
theorem update_without_changes_witness :
    resourceAlicloudDBReadWriteSplittingConnectionUpdate sampleConnectionEnv
        sampleConnectionData (World.start []) =
      resourceAlicloudDBReadWriteSplittingConnectionRead sampleConnectionEnv
        sampleConnectionData (World.start []) :=
  (update_without_changes sampleConnectionEnv sampleConnectionData (World.start []) rfl).2.2.1 rfl

/-- C4 (as stated) fails: Update of the PID organization `org-1` with zero
changed fields sends the lookup of Read to the remote, and when that lookup
answers with an error other than not-found, Update returns the error. -/
theorem update_without_changes_returns_lookup_error :
    (sampleData "org-1" [("pid_organization_name", Val.str "X")] []).changed = [] ∧
    (resourceAlicloudBrainIndustrialPidOrganizationUpdate
      (scriptEnv (Except.error (GoError.sdk "InternalError" "")) none)
      (sampleData "org-1" [("pid_organization_name", Val.str "X")] [])
      (World.start [])).requests = 1 ∧
    (resourceAlicloudBrainIndustrialPidOrganizationUpdate
      (scriptEnv (Except.error (GoError.sdk "InternalError" "")) none)
      (sampleData "org-1" [("pid_organization_name", Val.str "X")] [])
      (World.start [])).err = some (GoError.wrap (GoError.sdk "InternalError" "")) := by
  refine ⟨rfl, by decide, by decide⟩

/-! ## The payload of Update -/

theorem mapGet_mapSet (m : Obj) (j k : String) (v : Val) :
    mapGet (mapSet m j v) k = if j = k then some v else mapGet m k := by
  by_cases h : j = k
  · subst h
    simp [mapGet_mapSet_self]
  · simp [h, mapGet_mapSet_ne m j k v h]

theorem retryLoop_log {ρ : Type} (env : Env ρ) (product version action : String) (request : Obj)
    (autoRetry : Bool) (onError : GoError → Option RetryError) :
    ∀ (n : Nat) (last : GoError) (w : World ρ) (resp : Option Obj),
      ∃ k, k ≤ n ∧
        (retryLoop (rpcAttempt env product version action request autoRetry onError) n last
          (w, resp)).2.1.log =
          w.log ++ List.replicate k (Call.rpc product version action request) := by
  intro n
  induction n with
  | zero => intro last w resp; exact ⟨0, le_refl _, by simp [retryLoop]⟩
  | succ n ih =>
    intro last w resp
    rw [retryLoop, rpcAttempt_eq]
    cases hr : attemptReturn onError
        (env.RpcPost product version action request autoRetry w.remote).1 with
    | none => exact ⟨1, by omega, by simp⟩
    | some re =>
      cases re with
      | NonRetryableError e => exact ⟨1, by omega, by simp⟩
      | RetryableError e =>
        obtain ⟨k, hk, hlog⟩ := ih e
          { remote := (env.RpcPost product version action request autoRetry w.remote).2,
            log := w.log ++ [Call.rpc product version action request] }
          (responseOf (env.RpcPost product version action request autoRetry w.remote).1)
        refine ⟨k + 1, by omega, ?_⟩
        simp only
        rw [hlog]
        simp [List.replicate_succ]

/-- The `RpcPost` calls of a retried call: some number of calls of the one
action with the one request. -/
theorem Retry_rpcCalls {ρ : Type} (env : Env ρ) (product version action : String) (request : Obj)
    (autoRetry : Bool) (onError : GoError → Option RetryError) (n : Nat) (w w1 : World ρ)
    (e : Option GoError) (r : Option Obj)
    (h : Retry n (rpcAttempt env product version action request autoRetry onError) (w, none) =
      (e, (w1, r))) :
    ∃ k, k ≤ n ∧ rpcCalls w1.log = rpcCalls w.log ++ List.replicate k (action, request) := by
  obtain ⟨k, hk, hlog⟩ := retryLoop_log env product version action request autoRetry onError n
    GoError.timeout w none
  unfold Retry at h
  rw [h] at hlog
  simp only at hlog
  exact ⟨k, hk, by rw [hlog, rpcCalls_append, rpcCalls_replicate]⟩

theorem pidOrganizationUpdate_rpcCalls {ρ : Type} (env : Env ρ) (d : ResourceData)
    (w w1 : World ρ)
    (h : (resourceAlicloudBrainIndustrialPidOrganizationUpdate env d w).world = some w1) :
    ∃ k, rpcCalls w1.log =
      rpcCalls w.log ++ List.replicate k ("UpdatePidOrganization", pidOrganizationUpdateRequest d) := by
  unfold resourceAlicloudBrainIndustrialPidOrganizationUpdate at h
  split at h
  · simp only [] at h
    cases hR : Retry (env.attempts (d.Timeout TimeoutKey.TimeoutUpdate))
        (rpcAttempt env "brain-industrial" "2020-09-20" "UpdatePidOrganization"
          (pidOrganizationUpdateRequest d) false (needRetryOnError env)) (w, none) with
    | mk e sw =>
      obtain ⟨w2, r⟩ := sw
      obtain ⟨k, _, hk⟩ := Retry_rpcCalls _ _ _ _ _ _ _ _ _ _ _ _ hR
      rw [hR] at h
      cases e with
      | some err =>
        simp only [Result.world, Option.some.injEq] at h
        rw [← h]
        exact ⟨k, hk⟩
      | none =>
        simp only at h
        rw [pidOrganizationRead_rpcCalls env d w2 w1 h]
        exact ⟨k, hk⟩
  · exact ⟨0, by simpa using pidOrganizationRead_rpcCalls env d w w1 h⟩

theorem configAggregatorUpdate_rpcCalls {ρ : Type} (env : Env ρ) (d : ResourceData)
    (w w1 : World ρ) (maps : List Obj) (v : String)
    (hm : aggregatorAccountsMaps (d.GetSet "aggregator_accounts") = some maps)
    (hv : env.convertArrayObjectToJsonString maps = Except.ok v)
    (h : (resourceAlicloudConfigAggregatorUpdate env d w).world = some w1) :
    ∃ k, rpcCalls w1.log =
      rpcCalls w.log ++ List.replicate k ("UpdateAggregator",
        mapSet (configAggregatorUpdateRequest d v) "ClientToken"
          (Val.str (env.buildClientToken "UpdateAggregator"))) := by
  unfold resourceAlicloudConfigAggregatorUpdate at h
  simp only [hm, hv] at h
  split at h
  · cases hR : Retry (env.attempts (d.Timeout TimeoutKey.TimeoutUpdate))
        (rpcAttempt env "Config" "2020-09-07" "UpdateAggregator"
          (mapSet (configAggregatorUpdateRequest d v) "ClientToken"
            (Val.str (env.buildClientToken "UpdateAggregator"))) true (needRetryOnError env))
        (w, none) with
    | mk e sw =>
      obtain ⟨w2, r⟩ := sw
      obtain ⟨k, _, hk⟩ := Retry_rpcCalls _ _ _ _ _ _ _ _ _ _ _ _ hR
      rw [hR] at h
      cases e with
      | some err =>
        simp only [Result.world, Option.some.injEq] at h
        rw [← h]
        exact ⟨k, hk⟩
      | none =>
        simp only at h
        rw [configAggregatorRead_rpcCalls env d w2 w1 h]
        exact ⟨k, hk⟩
  · exact ⟨0, by simpa using configAggregatorRead_rpcCalls env d w w1 h⟩

theorem readWriteSplittingUpdate_rpcCalls {ρ : Type} (env : Env ρ) (d : ResourceData)
    (w w1 : World ρ) (request : Obj)
    (hreq : readWriteSplittingUpdateRequest env d = some (Except.ok request))
    (h : (resourceAlicloudDBReadWriteSplittingConnectionUpdate env d w).world = some w1) :
    ∃ k, rpcCalls w1.log =
      rpcCalls w.log ++ List.replicate k ("ModifyReadWriteSplittingConnection", request) := by
  unfold resourceAlicloudDBReadWriteSplittingConnectionUpdate at h
  simp only [] at h
  split at h
  · split at h
    · simp only [Result.world, Option.some.injEq] at h
      rw [← h]
      exact ⟨0, by simp [rpcCalls_append, rpcCalls]⟩
    · have := readWriteSplittingRead_rpcCalls env d _ w1 h
      rw [this]
      exact ⟨0, by simp [rpcCalls_append, rpcCalls]⟩
  · simp only [hreq] at h
    split at h
    · cases hW : env.WaitForDBInstance d.Id env.Running (60 * 60) w.remote with
      | mk e1 s1 =>
        simp only [waitCall, hW] at h
        cases e1 with
        | some err =>
          simp only [Result.world, Option.some.injEq] at h
          rw [← h]
          exact ⟨0, by simp [rpcCalls_append, rpcCalls]⟩
        | none =>
          simp only at h
          cases hR : Retry (env.attempts (30 * 60))
              (rpcAttempt env "Rds" "2014-08-15" "ModifyReadWriteSplittingConnection" request
                false (readWriteSplittingUpdateOnError env))
              ({ remote := s1,
                 log := w.log ++ [Call.wait "DBInstance" d.Id env.Running (60 * 60)] }, none) with
          | mk e sw =>
            obtain ⟨w2, r⟩ := sw
            obtain ⟨k, _, hk⟩ := Retry_rpcCalls _ _ _ _ _ _ _ _ _ _ _ _ hR
            simp only [rpcCalls_append, rpcCalls, List.append_nil] at hk
            rw [hR] at h
            cases e with
            | some err =>
              simp only [Result.world, Option.some.injEq] at h
              rw [← h]
              exact ⟨k, hk⟩
            | none =>
              simp only at h
              cases hW2 : env.WaitForDBInstance d.Id env.Running env.DefaultTimeoutMedium
                  w2.remote with
              | mk e2 s2 =>
                simp only [hW2] at h
                cases e2 with
                | some err =>
                  simp only [Result.world, Option.some.injEq] at h
                  rw [← h]
                  exact ⟨k, by simp [rpcCalls_append, rpcCalls, hk]⟩
                | none =>
                  simp only at h
                  have := readWriteSplittingRead_rpcCalls env d _ w1 h
                  rw [this]
                  exact ⟨k, by simp [rpcCalls_append, rpcCalls, hk]⟩
    · exact ⟨0, by simpa using readWriteSplittingRead_rpcCalls env d w w1 h⟩

theorem pidOrganizationUpdateRequest_keys (d : ResourceData) (k : String) :
    (mapGet (pidOrganizationUpdateRequest d) k).isSome = true ↔
      k = "OrganizationId" ∨ k = "OrganizationName" := by
  unfold pidOrganizationUpdateRequest
  simp only [mapGet_mapSet, mapGet]
  by_cases h1 : "OrganizationName" = k
  · simp [h1.symm]
  · by_cases h2 : "OrganizationId" = k
    · simp [h2.symm]
    · have h1' : ¬ k = "OrganizationName" := fun h => h1 h.symm
      have h2' : ¬ k = "OrganizationId" := fun h => h2 h.symm
      simp [h1, h2, h1', h2']

theorem configAggregatorUpdateRequest_keys (d : ResourceData) (v : String) (tok : Val)
    (k : String) :
    (mapGet (mapSet (configAggregatorUpdateRequest d v) "ClientToken" tok) k).isSome = true ↔
      k = "AggregatorId" ∨ k = "AggregatorAccounts" ∨ k = "ClientToken" ∨
      (k = "AggregatorName" ∧ d.HasChange "aggregator_name" = true ∧
        (d.GetOk "aggregator_name").isSome = true) ∨
      (k = "Description" ∧ d.HasChange "description" = true ∧
        (d.GetOk "description").isSome = true) := by
  unfold configAggregatorUpdateRequest
  by_cases h1 : k = "AggregatorId"
  · subst h1
    cases d.HasChange "aggregator_name" <;> cases d.HasChange "description" <;>
      cases d.GetOk "aggregator_name" <;> cases d.GetOk "description" <;>
      simp [mapGet_mapSet, mapGet]
  by_cases h2 : k = "AggregatorAccounts"
  · subst h2
    cases d.HasChange "aggregator_name" <;> cases d.HasChange "description" <;>
      cases d.GetOk "aggregator_name" <;> cases d.GetOk "description" <;>
      simp [mapGet_mapSet, mapGet]
  by_cases h3 : k = "ClientToken"
  · subst h3
    simp [mapGet_mapSet, mapGet]
  by_cases h4 : k = "AggregatorName"
  · subst h4
    cases d.HasChange "aggregator_name" <;> cases d.HasChange "description" <;>
      cases d.GetOk "aggregator_name" <;> cases d.GetOk "description" <;>
      simp [mapGet_mapSet, mapGet]
  by_cases h5 : k = "Description"
  · subst h5
    cases d.HasChange "aggregator_name" <;> cases d.HasChange "description" <;>
      cases d.GetOk "aggregator_name" <;> cases d.GetOk "description" <;>
      simp [mapGet_mapSet, mapGet]
  have g1 : ¬ "AggregatorId" = k := fun h => h1 h.symm
  have g2 : ¬ "AggregatorAccounts" = k := fun h => h2 h.symm
  have g3 : ¬ "ClientToken" = k := fun h => h3 h.symm
  have g4 : ¬ "AggregatorName" = k := fun h => h4 h.symm
  have g5 : ¬ "Description" = k := fun h => h5 h.symm
  cases d.HasChange "aggregator_name" <;> cases d.HasChange "description" <;>
    cases d.GetOk "aggregator_name" <;> cases d.GetOk "description" <;>
    simp [mapGet_mapSet, mapGet, h1, h2, h3, h4, h5, g1, g2, g3, g4, g5]

theorem GetOk_obj_nonempty (d : ResourceData) (k : String) (m : Obj)
    (h : d.GetOk k = some (Val.obj m)) : m.length > 0 := by
  unfold ResourceData.GetOk at h
  split at h
  · rename_i v hv
    split at h
    · cases h
    · rename_i hz
      injection h with h
      subst h
      cases m with
      | nil => simp [Val.isZero] at hz
      | cons p rest => simp
  · cases h

/-- The shape of the request map of Update at the `if update` test. -/
theorem readWriteSplittingUpdateRequest_form {ρ : Type} (env : Env ρ) (d : ResourceData)
    (request : Obj) (hreq : readWriteSplittingUpdateRequest env d = some (Except.ok request)) :
    ∃ serial : String,
      request =
        (if d.HasChange "distribution_type" then
          mapSet
            (if d.HasChange "weight" = true ∧ (d.GetOk "weight").isSome = true then
              mapSet (readWriteSplittingUpdateRequest1 env d) "Weight" (Val.str serial)
            else readWriteSplittingUpdateRequest1 env d)
            "DistributionType" (Val.str (d.GetString "distribution_type"))
        else
          (if d.HasChange "weight" = true ∧ (d.GetOk "weight").isSome = true then
            mapSet (readWriteSplittingUpdateRequest1 env d) "Weight" (Val.str serial)
          else readWriteSplittingUpdateRequest1 env d)) := by
  unfold readWriteSplittingUpdateRequest at hreq
  simp only [] at hreq
  cases hw : d.HasChange "weight" with
  | false =>
    simp only [hw, Bool.false_eq_true, if_false, Option.map_some', Except.map,
      Option.some.injEq, Except.ok.injEq] at hreq
    exact ⟨"", by rw [← hreq]; simp⟩
  | true =>
    simp only [hw, if_true] at hreq
    unfold setWeightParam at hreq
    cases hg : d.GetOk "weight" with
    | none =>
      simp only [hg, Option.map_some', Except.map, Option.some.injEq, Except.ok.injEq] at hreq
      exact ⟨"", by rw [← hreq]; simp⟩
    | some v =>
      cases v with
      | obj weight =>
        have hlen := GetOk_obj_nonempty d "weight" weight hg
        simp only [hg, hlen, if_true] at hreq
        cases hj : env.jsonMarshal (Val.obj weight) with
        | error err => simp [hj, Except.map] at hreq
        | ok serial =>
          simp only [hj, Option.map_some', Except.map, Option.some.injEq, Except.ok.injEq] at hreq
          exact ⟨serial, by rw [← hreq]; simp⟩
      | _ => simp [hg] at hreq

theorem readWriteSplittingUpdateRequest_keys {ρ : Type} (env : Env ρ) (d : ResourceData)
    (request : Obj) (k : String)
    (hreq : readWriteSplittingUpdateRequest env d = some (Except.ok request)) :
    (mapGet request k).isSome = true ↔
      k = "RegionId" ∨ k = "DBInstanceId" ∨ k = "SourceIp" ∨
      (k = "MaxDelayTime" ∧ d.HasChange "max_delay_time" = true) ∨
      (k = "Weight" ∧ d.HasChange "weight" = true ∧ (d.GetOk "weight").isSome = true) ∨
      (k = "DistributionType" ∧ d.HasChange "distribution_type" = true) := by
  obtain ⟨serial, hform⟩ := readWriteSplittingUpdateRequest_form env d request hreq
  subst hform
  unfold readWriteSplittingUpdateRequest1
  by_cases h1 : k = "RegionId"
  · subst h1
    cases d.HasChange "max_delay_time" <;> cases d.HasChange "weight" <;>
      cases d.HasChange "distribution_type" <;> cases d.GetOk "weight" <;>
      simp [mapGet_mapSet, mapGet]
  by_cases h2 : k = "DBInstanceId"
  · subst h2
    cases d.HasChange "max_delay_time" <;> cases d.HasChange "weight" <;>
      cases d.HasChange "distribution_type" <;> cases d.GetOk "weight" <;>
      simp [mapGet_mapSet, mapGet]
  by_cases h3 : k = "SourceIp"
  · subst h3
    cases d.HasChange "max_delay_time" <;> cases d.HasChange "weight" <;>
      cases d.HasChange "distribution_type" <;> cases d.GetOk "weight" <;>
      simp [mapGet_mapSet, mapGet]
  by_cases h4 : k = "MaxDelayTime"
  · subst h4
    cases d.HasChange "max_delay_time" <;> cases d.HasChange "weight" <;>
      cases d.HasChange "distribution_type" <;> cases d.GetOk "weight" <;>
      simp [mapGet_mapSet, mapGet]
  by_cases h5 : k = "Weight"
  · subst h5
    cases d.HasChange "max_delay_time" <;> cases d.HasChange "weight" <;>
      cases d.HasChange "distribution_type" <;> cases d.GetOk "weight" <;>
      simp [mapGet_mapSet, mapGet]
  by_cases h6 : k = "DistributionType"
  · subst h6
    cases d.HasChange "max_delay_time" <;> cases d.HasChange "weight" <;>
      cases d.HasChange "distribution_type" <;> cases d.GetOk "weight" <;>
      simp [mapGet_mapSet, mapGet]
  have g1 : ¬ "RegionId" = k := fun h => h1 h.symm
  have g2 : ¬ "DBInstanceId" = k := fun h => h2 h.symm
  have g3 : ¬ "SourceIp" = k := fun h => h3 h.symm
  have g4 : ¬ "MaxDelayTime" = k := fun h => h4 h.symm
  have g5 : ¬ "Weight" = k := fun h => h5 h.symm
  have g6 : ¬ "DistributionType" = k := fun h => h6 h.symm
  cases d.HasChange "max_delay_time" <;> cases d.HasChange "weight" <;>
    cases d.HasChange "distribution_type" <;> cases d.GetOk "weight" <;>
    simp [mapGet_mapSet, mapGet, h1, h2, h3, h4, h5, h6, g1, g2, g3, g4, g5, g6]

/-- C6 (as amended): every `RpcPost` call of Update carries the one request map
the function builds.  For the PID organization that map holds exactly
`OrganizationId` and `OrganizationName`, and no call is made unless
`pid_organization_name` changed.  For the aggregator it holds `AggregatorId`,
`ClientToken` and `AggregatorAccounts` whether or not the accounts changed, and
`AggregatorName` and `Description` exactly when the field changed and its
value is not empty.  For the read-write-splitting connection it holds
`RegionId`, `DBInstanceId` and `SourceIp`, `MaxDelayTime` exactly when
`max_delay_time` changed, `DistributionType` exactly when `distribution_type`
changed, and `Weight` exactly when `weight` changed and is not empty. -/
theorem update_request_payload {ρ : Type} (env : Env ρ) (d : ResourceData) (w : World ρ) :
    (∀ w1, (resourceAlicloudBrainIndustrialPidOrganizationUpdate env d w).world = some w1 →
      ∃ n, (d.HasChange "pid_organization_name" = false → n = 0) ∧
        rpcCalls w1.log = rpcCalls w.log ++
          List.replicate n ("UpdatePidOrganization", pidOrganizationUpdateRequest d)) ∧
    (∀ k, (mapGet (pidOrganizationUpdateRequest d) k).isSome = true ↔
      k = "OrganizationId" ∨ k = "OrganizationName") ∧
    (∀ maps v w1, aggregatorAccountsMaps (d.GetSet "aggregator_accounts") = some maps →
      env.convertArrayObjectToJsonString maps = Except.ok v →
      (resourceAlicloudConfigAggregatorUpdate env d w).world = some w1 →
      ∃ n, rpcCalls w1.log = rpcCalls w.log ++
        List.replicate n ("UpdateAggregator",
          mapSet (configAggregatorUpdateRequest d v) "ClientToken"
            (Val.str (env.buildClientToken "UpdateAggregator")))) ∧
    (∀ v k,
      (mapGet (mapSet (configAggregatorUpdateRequest d v) "ClientToken"
        (Val.str (env.buildClientToken "UpdateAggregator"))) k).isSome = true ↔
      k = "AggregatorId" ∨ k = "AggregatorAccounts" ∨ k = "ClientToken" ∨
      (k = "AggregatorName" ∧ d.HasChange "aggregator_name" = true ∧
        (d.GetOk "aggregator_name").isSome = true) ∨
      (k = "Description" ∧ d.HasChange "description" = true ∧
        (d.GetOk "description").isSome = true)) ∧
    (∀ request w1, readWriteSplittingUpdateRequest env d = some (Except.ok request) →
      (resourceAlicloudDBReadWriteSplittingConnectionUpdate env d w).world = some w1 →
      ∃ n, rpcCalls w1.log = rpcCalls w.log ++
        List.replicate n ("ModifyReadWriteSplittingConnection", request)) ∧
    (∀ request k, readWriteSplittingUpdateRequest env d = some (Except.ok request) →
      ((mapGet request k).isSome = true ↔
        k = "RegionId" ∨ k = "DBInstanceId" ∨ k = "SourceIp" ∨
        (k = "MaxDelayTime" ∧ d.HasChange "max_delay_time" = true) ∨
        (k = "Weight" ∧ d.HasChange "weight" = true ∧ (d.GetOk "weight").isSome = true) ∨
        (k = "DistributionType" ∧ d.HasChange "distribution_type" = true))) := by
  refine ⟨?_, pidOrganizationUpdateRequest_keys d, ?_, ?_, ?_, ?_⟩
  · intro w1 h
    by_cases hc : d.HasChange "pid_organization_name" = true
    · obtain ⟨n, hn⟩ := pidOrganizationUpdate_rpcCalls env d w w1 h
      refine ⟨n, ?_, hn⟩
      intro hf
      rw [hf] at hc
      cases hc
    · refine ⟨0, fun _ => rfl, ?_⟩
      have hu : resourceAlicloudBrainIndustrialPidOrganizationUpdate env d w =
          resourceAlicloudBrainIndustrialPidOrganizationRead env d w := by
        simp [resourceAlicloudBrainIndustrialPidOrganizationUpdate, hc]
      rw [hu] at h
      simpa using pidOrganizationRead_rpcCalls env d w w1 h
  · intro maps v w1 hm hv h
    exact configAggregatorUpdate_rpcCalls env d w w1 maps v hm hv h
  · intro v k
    exact configAggregatorUpdateRequest_keys d v _ k
  · intro request w1 hreq h
    exact readWriteSplittingUpdate_rpcCalls env d w w1 request hreq h
  · intro request k hreq
    exact readWriteSplittingUpdateRequest_keys env d request k hreq

/-- Instance of `update_request_payload`: with `max_delay_time` and `weight`
changed on the connection `rm-1`, the request holds `Weight`. -/
theorem update_request_payload_witness :
    (mapGet
        [("Weight", Val.str "json"), ("MaxDelayTime", Val.str "0"),
          ("RegionId", Val.str "cn-hangzhou"), ("DBInstanceId", Val.str "rm-1"),
          ("SourceIp", Val.str "10.0.0.1")] "Weight").isSome = true ↔
      "Weight" = "RegionId" ∨ "Weight" = "DBInstanceId" ∨ "Weight" = "SourceIp" ∨
      ("Weight" = "MaxDelayTime" ∧
        (sampleData "rm-1" [("weight", Val.obj sampleWeights)]
          ["max_delay_time", "weight"]).HasChange "max_delay_time" = true) ∨
      ("Weight" = "Weight" ∧
        (sampleData "rm-1" [("weight", Val.obj sampleWeights)]
          ["max_delay_time", "weight"]).HasChange "weight" = true ∧
        ((sampleData "rm-1" [("weight", Val.obj sampleWeights)]
          ["max_delay_time", "weight"]).GetOk "weight").isSome = true) ∨
      ("Weight" = "DistributionType" ∧
        (sampleData "rm-1" [("weight", Val.obj sampleWeights)]
          ["max_delay_time", "weight"]).HasChange "distribution_type" = true) :=
  (update_request_payload sampleConnectionEnv
    (sampleData "rm-1" [("weight", Val.obj sampleWeights)] ["max_delay_time", "weight"])
    (World.start [])).2.2.2.2.2
    [("Weight", Val.str "json"), ("MaxDelayTime", Val.str "0"),
      ("RegionId", Val.str "cn-hangzhou"), ("DBInstanceId", Val.str "rm-1"),
      ("SourceIp", Val.str "10.0.0.1")] "Weight" rfl

/-- C6 (as stated) fails: Update of the aggregator `ca-1` with only
`description` changed sends `AggregatorAccounts` although the accounts did not
change, and Update of the connection `rm-1` with `weight` changed to the empty
map sends no `Weight`. -/
theorem update_payload_differs_from_changed_fields :
    (sampleData "ca-1" [("description", Val.str "new")] ["description"]).HasChange
      "aggregator_accounts" = false ∧
    (resourceAlicloudConfigAggregatorUpdate (scriptEnv (Except.ok []) none)
      (sampleData "ca-1" [("description", Val.str "new")] ["description"])
      (World.start [Except.ok []])).sentParam "AggregatorAccounts" = [some (Val.str "json")] ∧
    (sampleData "rm-1" [] ["weight"]).HasChange "weight" = true ∧
    (resourceAlicloudDBReadWriteSplittingConnectionUpdate sampleConnectionEnv
      (sampleData "rm-1" [] ["weight"])
      (World.start [Except.ok []])).sentActions = ["ModifyReadWriteSplittingConnection"] ∧
    (resourceAlicloudDBReadWriteSplittingConnectionUpdate sampleConnectionEnv
      (sampleData "rm-1" [] ["weight"])
      (World.start [Except.ok []])).sentParam "Weight" = [none] :=
  ⟨by decide, rfl, by decide, rfl, rfl⟩

/-! ## The timeout of the retried call -/

theorem retryLoop_busy {ρ : Type} (env : Env ρ) (product version action : String) (request : Obj)
    (autoRetry : Bool) (onError : GoError → Option RetryError)
    (hbusy : ∀ s, isRetryable onError
      (env.RpcPost product version action request autoRetry s).1 = true) :
    ∀ (n : Nat) (last : GoError) (w : World ρ) (resp : Option Obj),
      ∃ e w1 r,
        retryLoop (rpcAttempt env product version action request autoRetry onError) n last
          (w, resp) = (some e, (w1, r)) ∧
        w1.log = w.log ++ List.replicate n (Call.rpc product version action request) := by
  intro n
  induction n with
  | zero => intro last w resp; exact ⟨last, w, resp, rfl, by simp⟩
  | succ n ih =>
    intro last w resp
    rw [retryLoop, rpcAttempt_eq]
    have hb := hbusy w.remote
    unfold isRetryable at hb
    cases hr : attemptReturn onError
        (env.RpcPost product version action request autoRetry w.remote).1 with
    | none => simp [hr] at hb
    | some re =>
      cases re with
      | NonRetryableError e => simp [hr] at hb
      | RetryableError e =>
        obtain ⟨e1, w1, r, h1, h2⟩ := ih e
          { remote := (env.RpcPost product version action request autoRetry w.remote).2,
            log := w.log ++ [Call.rpc product version action request] }
          (responseOf (env.RpcPost product version action request autoRetry w.remote).1)
        refine ⟨e1, w1, r, h1, ?_⟩
        rw [h2]
        simp [List.replicate_succ]

/-- A retried call against a remote that always asks for a retry makes as many
calls as fit in the timeout, and returns an error. -/
theorem Retry_busy {ρ : Type} (env : Env ρ) (product version action : String) (request : Obj)
    (autoRetry : Bool) (onError : GoError → Option RetryError)
    (hbusy : ∀ s, isRetryable onError
      (env.RpcPost product version action request autoRetry s).1 = true)
    (n : Nat) (w : World ρ) :
    ∃ e w1 r,
      Retry n (rpcAttempt env product version action request autoRetry onError) (w, none) =
        (some e, (w1, r)) ∧
      rpcCalls w1.log = rpcCalls w.log ++ List.replicate n (action, request) := by
  obtain ⟨e, w1, r, h1, h2⟩ := retryLoop_busy env product version action request autoRetry
    onError hbusy n GoError.timeout w none
  exact ⟨e, w1, r, h1, by rw [h2, rpcCalls_append, rpcCalls_replicate]⟩

theorem busy_needRetryOnError {ρ : Type} (env : Env ρ) (hbusy : alwaysBusy env)
    (product version action : String) (request : Obj) (autoRetry : Bool) (s : ρ) :
    isRetryable (needRetryOnError env)
      (env.RpcPost product version action request autoRetry s).1 = true := by
  obtain ⟨e, h1, h2⟩ := hbusy product version action request autoRetry s
  simp [isRetryable, attemptReturn, needRetryOnError, h1, h2]

theorem busy_createOnError {ρ : Type} (env : Env ρ) (hbusy : alwaysBusy env)
    (product version action : String) (request : Obj) (autoRetry : Bool) (s : ρ) :
    isRetryable (readWriteSplittingCreateOnError env)
      (env.RpcPost product version action request autoRetry s).1 = true := by
  obtain ⟨e, h1, h2⟩ := hbusy product version action request autoRetry s
  simp [isRetryable, attemptReturn, readWriteSplittingCreateOnError, h1, h2]

theorem busy_updateOnError {ρ : Type} (env : Env ρ) (hbusy : alwaysBusy env)
    (product version action : String) (request : Obj) (autoRetry : Bool) (s : ρ) :
    isRetryable (readWriteSplittingUpdateOnError env)
      (env.RpcPost product version action request autoRetry s).1 = true := by
  obtain ⟨e, h1, h2⟩ := hbusy product version action request autoRetry s
  simp [isRetryable, attemptReturn, readWriteSplittingUpdateOnError, h1, h2]

theorem busy_deleteOnError {ρ : Type} (env : Env ρ) (hbusy : alwaysBusy env)
    (product version action : String) (request : Obj) (autoRetry : Bool) (s : ρ) :
    isRetryable (readWriteSplittingDeleteOnError env)
      (env.RpcPost product version action request autoRetry s).1 = true := by
  obtain ⟨e, h1, h2⟩ := hbusy product version action request autoRetry s
  simp [isRetryable, attemptReturn, readWriteSplittingDeleteOnError, h1, h2]

/-- C7 (as amended): against a remote that always asks for a retry, the
retried call of an operation is issued as often as fits in a timeout: for the
aggregator the create timeout in Create, the update timeout in Update and the
delete timeout in Delete; for the PID organization the update timeout in
Update and the delete timeout in Delete; for the read-write-splitting
connection the fixed 60 minutes in Create and 30 minutes in Update and Delete,
whatever timeouts are configured. -/
theorem retried_call_timeouts {ρ : Type} (env : Env ρ) (hbusy : alwaysBusy env)
    (d : ResourceData) (w : World ρ) :
    (d.HasChange "pid_organization_name" = true →
      ∃ w1, (resourceAlicloudBrainIndustrialPidOrganizationUpdate env d w).world = some w1 ∧
        rpcCalls w1.log = rpcCalls w.log ++
          List.replicate (env.attempts (d.Timeout TimeoutKey.TimeoutUpdate))
            ("UpdatePidOrganization", pidOrganizationUpdateRequest d)) ∧
    (∃ w1, (resourceAlicloudBrainIndustrialPidOrganizationDelete env d w).world = some w1 ∧
      rpcCalls w1.log = rpcCalls w.log ++
        List.replicate (env.attempts (d.Timeout TimeoutKey.TimeoutDelete))
          ("DeletePidOrganization", pidOrganizationDeleteRequest d)) ∧
    (∀ maps v, aggregatorAccountsMaps (d.GetSet "aggregator_accounts") = some maps →
      env.convertArrayObjectToJsonString maps = Except.ok v →
      ∃ w1, (resourceAlicloudConfigAggregatorCreate env d w).world = some w1 ∧
        rpcCalls w1.log = rpcCalls w.log ++
          List.replicate (env.attempts (d.Timeout TimeoutKey.TimeoutCreate))
            ("CreateAggregator", configAggregatorCreateRequest env d v)) ∧
    (∀ maps v, aggregatorAccountsMaps (d.GetSet "aggregator_accounts") = some maps →
      env.convertArrayObjectToJsonString maps = Except.ok v →
      configAggregatorUpdateFlag d = true →
      ∃ w1, (resourceAlicloudConfigAggregatorUpdate env d w).world = some w1 ∧
        rpcCalls w1.log = rpcCalls w.log ++
          List.replicate (env.attempts (d.Timeout TimeoutKey.TimeoutUpdate))
            ("UpdateAggregator", mapSet (configAggregatorUpdateRequest d v) "ClientToken"
              (Val.str (env.buildClientToken "UpdateAggregator")))) ∧
    (∃ w1, (resourceAlicloudConfigAggregatorDelete env d w).world = some w1 ∧
      rpcCalls w1.log = rpcCalls w.log ++
        List.replicate (env.attempts (d.Timeout TimeoutKey.TimeoutDelete))
          ("DeleteAggregators", configAggregatorDeleteRequest env d)) ∧
    (∀ request,
      (readWriteSplittingCreateRequest env d).bind (setWeightParam env d) =
        some (Except.ok request) →
      ∃ w1, (resourceAlicloudDBReadWriteSplittingConnectionCreate env d w).world = some w1 ∧
        rpcCalls w1.log = rpcCalls w.log ++
          List.replicate (env.attempts (60 * 60))
            ("AllocateReadWriteSplittingConnection", request)) ∧
    (∀ request s1, (!d.HasChange "max_delay_time" && d.IsNewResource) = false →
      readWriteSplittingUpdateRequest env d = some (Except.ok request) →
      readWriteSplittingUpdateFlag d = true →
      env.WaitForDBInstance d.Id env.Running (60 * 60) w.remote = (none, s1) →
      ∃ w1, (resourceAlicloudDBReadWriteSplittingConnectionUpdate env d w).world = some w1 ∧
        rpcCalls w1.log = rpcCalls w.log ++
          List.replicate (env.attempts (30 * 60))
            ("ModifyReadWriteSplittingConnection", request)) ∧
    (∃ w1, (resourceAlicloudDBReadWriteSplittingConnectionDelete env d w).world = some w1 ∧
      rpcCalls w1.log = rpcCalls w.log ++
        List.replicate (env.attempts (30 * 60))
          ("ReleaseReadWriteSplittingConnection", readWriteSplittingDeleteRequest env d)) := by
  refine ⟨?_, ?_, ?_, ?_, ?_, ?_, ?_, ?_⟩
  · intro hc
    obtain ⟨e, w1, r, h1, h2⟩ := Retry_busy env "brain-industrial" "2020-09-20"
      "UpdatePidOrganization" (pidOrganizationUpdateRequest d) false (needRetryOnError env)
      (busy_needRetryOnError env hbusy _ _ _ _ _)
      (env.attempts (d.Timeout TimeoutKey.TimeoutUpdate)) w
    refine ⟨w1, ?_, h2⟩
    simp [resourceAlicloudBrainIndustrialPidOrganizationUpdate, hc, h1, Result.world]
  · obtain ⟨e, w1, r, h1, h2⟩ := Retry_busy env "brain-industrial" "2020-09-20"
      "DeletePidOrganization" (pidOrganizationDeleteRequest d) false (needRetryOnError env)
      (busy_needRetryOnError env hbusy _ _ _ _ _)
      (env.attempts (d.Timeout TimeoutKey.TimeoutDelete)) w
    refine ⟨w1, ?_, h2⟩
    simp [resourceAlicloudBrainIndustrialPidOrganizationDelete, h1, Result.world]
  · intro maps v hm hv
    obtain ⟨e, w1, r, h1, h2⟩ := Retry_busy env "Config" "2020-09-07"
      "CreateAggregator" (configAggregatorCreateRequest env d v) true (needRetryOnError env)
      (busy_needRetryOnError env hbusy _ _ _ _ _)
      (env.attempts (d.Timeout TimeoutKey.TimeoutCreate)) w
    refine ⟨w1, ?_, h2⟩
    simp [resourceAlicloudConfigAggregatorCreate, hm, hv, h1, Result.world]
  · intro maps v hm hv hf
    obtain ⟨e, w1, r, h1, h2⟩ := Retry_busy env "Config" "2020-09-07"
      "UpdateAggregator" (mapSet (configAggregatorUpdateRequest d v) "ClientToken"
        (Val.str (env.buildClientToken "UpdateAggregator"))) true (needRetryOnError env)
      (busy_needRetryOnError env hbusy _ _ _ _ _)
      (env.attempts (d.Timeout TimeoutKey.TimeoutUpdate)) w
    refine ⟨w1, ?_, h2⟩
    simp [resourceAlicloudConfigAggregatorUpdate, hm, hv, hf, h1, Result.world]
  · obtain ⟨e, w1, r, h1, h2⟩ := Retry_busy env "Config" "2020-09-07"
      "DeleteAggregators" (configAggregatorDeleteRequest env d) true (needRetryOnError env)
      (busy_needRetryOnError env hbusy _ _ _ _ _)
      (env.attempts (d.Timeout TimeoutKey.TimeoutDelete)) w
    refine ⟨w1, ?_, h2⟩
    simp only [resourceAlicloudConfigAggregatorDelete, h1]
    split <;> rfl
  · intro request hreq
    obtain ⟨e, w1, r, h1, h2⟩ := Retry_busy env "Rds" "2014-08-15"
      "AllocateReadWriteSplittingConnection" request false
      (readWriteSplittingCreateOnError env) (busy_createOnError env hbusy _ _ _ _ _)
      (env.attempts (60 * 60)) w
    refine ⟨w1, ?_, h2⟩
    simp [resourceAlicloudDBReadWriteSplittingConnectionCreate, hreq, h1, Result.world]
  · intro request s1 hnew hreq hf hwait
    obtain ⟨e, w1, r, h1, h2⟩ := Retry_busy env "Rds" "2014-08-15"
      "ModifyReadWriteSplittingConnection" request false
      (readWriteSplittingUpdateOnError env) (busy_updateOnError env hbusy _ _ _ _ _)
      (env.attempts (30 * 60))
      { remote := s1, log := w.log ++ [Call.wait "DBInstance" d.Id env.Running (60 * 60)] }
    refine ⟨w1, ?_, by simpa [rpcCalls_append, rpcCalls] using h2⟩
    simp only [Bool.and_eq_false_imp, Bool.not_eq_true'] at hnew
    have hcond : ¬ (d.HasChange "max_delay_time" = false ∧ d.IsNewResource = true) := by
      rintro ⟨a, b⟩
      rw [hnew a] at b
      cases b
    simp [resourceAlicloudDBReadWriteSplittingConnectionUpdate, hcond, hreq, hf, waitCall, hwait,
      h1, Result.world]
  · obtain ⟨e, w1, r, h1, h2⟩ := Retry_busy env "Rds" "2014-08-15"
      "ReleaseReadWriteSplittingConnection" (readWriteSplittingDeleteRequest env d) false
      (readWriteSplittingDeleteOnError env) (busy_deleteOnError env hbusy _ _ _ _ _)
      (env.attempts (30 * 60)) w
    refine ⟨w1, ?_, h2⟩
    simp [resourceAlicloudDBReadWriteSplittingConnectionDelete, h1, Result.world]

/-- Instance of `retried_call_timeouts`: Delete of the PID organization `org-1`
against the remote that always answers `Throttling`. -/
theorem retried_call_timeouts_witness :
    ∃ w1, (resourceAlicloudBrainIndustrialPidOrganizationDelete busyEnv
        (sampleData "org-1" [] []) (World.start ())).world = some w1 ∧
      rpcCalls w1.log = rpcCalls (World.start ()).log ++
        List.replicate (busyEnv.attempts ((sampleData "org-1" [] []).Timeout TimeoutKey.TimeoutDelete))
          ("DeletePidOrganization", pidOrganizationDeleteRequest (sampleData "org-1" [] [])) :=
  (retried_call_timeouts busyEnv (fun _ _ _ _ _ _ => ⟨_, rfl, by decide⟩)
    (sampleData "org-1" [] []) (World.start ())).2.1

/-- C7 (as stated) fails: with a create timeout of 10 and an update timeout of
5 attempts, Create of the PID organization gives up after 5 attempts; and
Delete of the read-write-splitting connection, with a configured delete
timeout in which no attempt fits, makes the 3 attempts that fit in its fixed
30 minutes. -/
theorem retried_call_ignores_configured_timeout :
    (scriptEnv (Except.ok []) none).attempts
      ((sampleData "" [] []).Timeout TimeoutKey.TimeoutCreate) = 10 ∧
    (resourceAlicloudBrainIndustrialPidOrganizationCreate (scriptEnv (Except.ok []) none)
      (sampleData "" [] []) (World.start (busyScript 20))).sentActions.length = 5 ∧
    slowEnv.attempts ((sampleData "rm-1" [] []).Timeout TimeoutKey.TimeoutDelete) = 0 ∧
    (resourceAlicloudDBReadWriteSplittingConnectionDelete slowEnv
      (sampleData "rm-1" [] []) (World.start (busyScript 20))).sentActions.length = 3 := by
  refine ⟨by decide, by decide, by decide, by decide⟩

/-! ## Retry and the returned error -/

theorem Retry_run {ρ : Type} (env : Env ρ) (product version action : String) (request : Obj)
    (autoRetry : Bool) (onError : GoError → Option RetryError) (n : Nat) (w : World ρ)
    (pending : List (Except GoError Obj)) (final : Except GoError Obj) (s1 : ρ)
    (h : retryRun env product version action request autoRetry onError n w.remote pending
      final s1) :
    Retry n (rpcAttempt env product version action request autoRetry onError) (w, none) =
      (finalError onError final,
        ({ remote := s1,
           log := w.log ++ List.replicate (pending.length + 1)
             (Call.rpc product version action request) },
         responseOf final)) :=
  retryLoop_run env product version action request autoRetry onError pending final n
    GoError.timeout w none s1 h.1 h.2.1 h.2.2.1 h.2.2.2

theorem finalError_needRetry {ρ : Type} (env : Env ρ) (err : GoError)
    (h : isRetryable (needRetryOnError env) (Except.error err) = false) :
    finalError (needRetryOnError env) (Except.error err) = some err := by
  unfold isRetryable attemptReturn needRetryOnError at h
  unfold finalError attemptReturn needRetryOnError
  by_cases hn : env.NeedRetry err = true
  · simp [hn] at h
  · simp [hn]

theorem finalError_create {ρ : Type} (env : Env ρ) (err : GoError)
    (h : isRetryable (readWriteSplittingCreateOnError env) (Except.error err) = false) :
    finalError (readWriteSplittingCreateOnError env) (Except.error err) = some err := by
  unfold isRetryable attemptReturn readWriteSplittingCreateOnError at h
  unfold finalError attemptReturn readWriteSplittingCreateOnError
  cases hc : (env.IsExpectedErrors err env.DBReadInstanceNotReadyStatus || env.NeedRetry err)
  · simp only [hc]
    simp
  · simp only [hc] at h
    simp at h

theorem finalError_update {ρ : Type} (env : Env ρ) (err : GoError)
    (h : isRetryable (readWriteSplittingUpdateOnError env) (Except.error err) = false) :
    finalError (readWriteSplittingUpdateOnError env) (Except.error err) = some err := by
  unfold isRetryable attemptReturn readWriteSplittingUpdateOnError at h
  unfold finalError attemptReturn readWriteSplittingUpdateOnError
  cases hc : (env.IsExpectedErrors err env.OperationDeniedDBStatus
      || env.IsExpectedErrors err env.DBReadInstanceNotReadyStatus || env.NeedRetry err)
  · simp only [hc]
    simp
  · simp only [hc] at h
    simp at h

theorem finalError_delete {ρ : Type} (env : Env ρ) (err : GoError)
    (h : isRetryable (readWriteSplittingDeleteOnError env) (Except.error err) = false)
    (hgone : (env.NotFoundError err
      || env.IsExpectedErrors err ["InvalidRwSplitNetType.NotFound"]) = false) :
    finalError (readWriteSplittingDeleteOnError env) (Except.error err) = some err := by
  unfold isRetryable attemptReturn readWriteSplittingDeleteOnError at h
  unfold finalError attemptReturn readWriteSplittingDeleteOnError
  cases hc : (env.IsExpectedErrors err env.OperationDeniedDBStatus || env.NeedRetry err)
  · simp only [hc, hgone]
    simp
  · simp only [hc] at h
    simp at h

/-- C8 (as amended): when the answers to the retried call of an operation are
retryable ones followed by one that is not, and all fit in the timeout, the
call is issued once per answer and stops at that answer.  When that answer is
an error, the operation returns it wrapped with the action name and the local
ID (Create of the PID organization and of the aggregator: with the resource
type name), the resource data unchanged; Delete of the aggregator does so
unless the error is expected under `AccountNotExisted` or
`Invalid.AggregatorIds.Empty`, and Delete of the read-write-splitting
connection unless the error is a not-found one, which its retried function
turns into a nil return. -/
theorem retry_stops_at_final_answer {ρ : Type} (env : Env ρ) (d : ResourceData) (w : World ρ)
    (pending : List (Except GoError Obj)) (err : GoError) (s1 : ρ) :
    (∀ product version action request autoRetry onError n final,
      retryRun env product version action request autoRetry onError n w.remote pending final s1 →
      Retry n (rpcAttempt env product version action request autoRetry onError) (w, none) =
        (finalError onError final,
          ({ remote := s1,
             log := w.log ++ List.replicate (pending.length + 1)
               (Call.rpc product version action request) },
           responseOf final))) ∧
    (retryRun env "brain-industrial" "2020-09-20" "CreatePidOrganization"
        (pidOrganizationCreateRequest env d) true (needRetryOnError env)
        (env.attempts (d.Timeout TimeoutKey.TimeoutUpdate)) w.remote pending
        (Except.error err) s1 →
      resourceAlicloudBrainIndustrialPidOrganizationCreate env d w =
        Result.fail (WrapErrorf err DefaultErrorMsg
          ["alicloud_brain_industrial_pid_organization", "CreatePidOrganization",
            AlibabaCloudSdkGoERROR]) d
          { remote := s1,
            log := w.log ++ List.replicate (pending.length + 1)
              (Call.rpc "brain-industrial" "2020-09-20" "CreatePidOrganization"
                (pidOrganizationCreateRequest env d)) }) ∧
    (d.HasChange "pid_organization_name" = true →
      retryRun env "brain-industrial" "2020-09-20" "UpdatePidOrganization"
        (pidOrganizationUpdateRequest d) false (needRetryOnError env)
        (env.attempts (d.Timeout TimeoutKey.TimeoutUpdate)) w.remote pending
        (Except.error err) s1 →
      resourceAlicloudBrainIndustrialPidOrganizationUpdate env d w =
        Result.fail (WrapErrorf err DefaultErrorMsg
          [d.Id, "UpdatePidOrganization", AlibabaCloudSdkGoERROR]) d
          { remote := s1,
            log := w.log ++ List.replicate (pending.length + 1)
              (Call.rpc "brain-industrial" "2020-09-20" "UpdatePidOrganization"
                (pidOrganizationUpdateRequest d)) }) ∧
    (retryRun env "brain-industrial" "2020-09-20" "DeletePidOrganization"
        (pidOrganizationDeleteRequest d) false (needRetryOnError env)
        (env.attempts (d.Timeout TimeoutKey.TimeoutDelete)) w.remote pending
        (Except.error err) s1 →
      resourceAlicloudBrainIndustrialPidOrganizationDelete env d w =
        Result.fail (WrapErrorf err DefaultErrorMsg
          [d.Id, "DeletePidOrganization", AlibabaCloudSdkGoERROR]) d
          { remote := s1,
            log := w.log ++ List.replicate (pending.length + 1)
              (Call.rpc "brain-industrial" "2020-09-20" "DeletePidOrganization"
                (pidOrganizationDeleteRequest d)) }) ∧
    (∀ maps v, aggregatorAccountsMaps (d.GetSet "aggregator_accounts") = some maps →
      env.convertArrayObjectToJsonString maps = Except.ok v →
      retryRun env "Config" "2020-09-07" "CreateAggregator"
        (configAggregatorCreateRequest env d v) true (needRetryOnError env)
        (env.attempts (d.Timeout TimeoutKey.TimeoutCreate)) w.remote pending
        (Except.error err) s1 →
      resourceAlicloudConfigAggregatorCreate env d w =
        Result.fail (WrapErrorf err DefaultErrorMsg
          ["alicloud_config_aggregator", "CreateAggregator", AlibabaCloudSdkGoERROR]) d
          { remote := s1,
            log := w.log ++ List.replicate (pending.length + 1)
              (Call.rpc "Config" "2020-09-07" "CreateAggregator"
                (configAggregatorCreateRequest env d v)) }) ∧
    (∀ maps v, aggregatorAccountsMaps (d.GetSet "aggregator_accounts") = some maps →
      env.convertArrayObjectToJsonString maps = Except.ok v →
      configAggregatorUpdateFlag d = true →
      retryRun env "Config" "2020-09-07" "UpdateAggregator"
        (mapSet (configAggregatorUpdateRequest d v) "ClientToken"
          (Val.str (env.buildClientToken "UpdateAggregator"))) true (needRetryOnError env)
        (env.attempts (d.Timeout TimeoutKey.TimeoutUpdate)) w.remote pending
        (Except.error err) s1 →
      resourceAlicloudConfigAggregatorUpdate env d w =
        Result.fail (WrapErrorf err DefaultErrorMsg
          [d.Id, "UpdateAggregator", AlibabaCloudSdkGoERROR]) d
          { remote := s1,
            log := w.log ++ List.replicate (pending.length + 1)
              (Call.rpc "Config" "2020-09-07" "UpdateAggregator"
                (mapSet (configAggregatorUpdateRequest d v) "ClientToken"
                  (Val.str (env.buildClientToken "UpdateAggregator")))) }) ∧
    (retryRun env "Config" "2020-09-07" "DeleteAggregators"
        (configAggregatorDeleteRequest env d) true (needRetryOnError env)
        (env.attempts (d.Timeout TimeoutKey.TimeoutDelete)) w.remote pending
        (Except.error err) s1 →
      env.IsExpectedErrors err ["AccountNotExisted", "Invalid.AggregatorIds.Empty"] = false →
      resourceAlicloudConfigAggregatorDelete env d w =
        Result.fail (WrapErrorf err DefaultErrorMsg
          [d.Id, "DeleteAggregators", AlibabaCloudSdkGoERROR]) d
          { remote := s1,
            log := w.log ++ List.replicate (pending.length + 1)
              (Call.rpc "Config" "2020-09-07" "DeleteAggregators"
                (configAggregatorDeleteRequest env d)) }) ∧
    (∀ request,
      (readWriteSplittingCreateRequest env d).bind (setWeightParam env d) =
        some (Except.ok request) →
      retryRun env "Rds" "2014-08-15" "AllocateReadWriteSplittingConnection" request false
        (readWriteSplittingCreateOnError env) (env.attempts (60 * 60)) w.remote pending
        (Except.error err) s1 →
      resourceAlicloudDBReadWriteSplittingConnectionCreate env d w =
        Result.fail (WrapErrorf err DefaultErrorMsg
          [d.Id, "AllocateReadWriteSplittingConnection", AlibabaCloudSdkGoERROR]) d
          { remote := s1,
            log := w.log ++ List.replicate (pending.length + 1)
              (Call.rpc "Rds" "2014-08-15" "AllocateReadWriteSplittingConnection" request) }) ∧
    (∀ request s0, (!d.HasChange "max_delay_time" && d.IsNewResource) = false →
      readWriteSplittingUpdateRequest env d = some (Except.ok request) →
      readWriteSplittingUpdateFlag d = true →
      env.WaitForDBInstance d.Id env.Running (60 * 60) w.remote = (none, s0) →
      retryRun env "Rds" "2014-08-15" "ModifyReadWriteSplittingConnection" request false
        (readWriteSplittingUpdateOnError env) (env.attempts (30 * 60)) s0 pending
        (Except.error err) s1 →
      resourceAlicloudDBReadWriteSplittingConnectionUpdate env d w =
        Result.fail (WrapErrorf err DefaultErrorMsg
          [d.Id, "ModifyReadWriteSplittingConnection", AlibabaCloudSdkGoERROR]) d
          { remote := s1,
            log := (w.log ++ [Call.wait "DBInstance" d.Id env.Running (60 * 60)]) ++
              List.replicate (pending.length + 1)
                (Call.rpc "Rds" "2014-08-15" "ModifyReadWriteSplittingConnection" request) }) ∧
    (retryRun env "Rds" "2014-08-15" "ReleaseReadWriteSplittingConnection"
        (readWriteSplittingDeleteRequest env d) false (readWriteSplittingDeleteOnError env)
        (env.attempts (30 * 60)) w.remote pending (Except.error err) s1 →
      (env.NotFoundError err
        || env.IsExpectedErrors err ["InvalidRwSplitNetType.NotFound"]) = false →
      resourceAlicloudDBReadWriteSplittingConnectionDelete env d w =
        Result.fail (WrapErrorf err DefaultErrorMsg
          [d.Id, "ReleaseReadWriteSplittingConnection", AlibabaCloudSdkGoERROR]) d
          { remote := s1,
            log := w.log ++ List.replicate (pending.length + 1)
              (Call.rpc "Rds" "2014-08-15" "ReleaseReadWriteSplittingConnection"
                (readWriteSplittingDeleteRequest env d)) }) := by
  refine ⟨?_, ?_, ?_, ?_, ?_, ?_, ?_, ?_, ?_, ?_⟩
  · intro product version action request autoRetry onError n final h
    exact Retry_run env product version action request autoRetry onError n w pending final s1 h
  · intro h
    have hr := Retry_run _ _ _ _ _ _ _ _ w _ _ _ h
    rw [finalError_needRetry env err h.2.2.1] at hr
    simp only [resourceAlicloudBrainIndustrialPidOrganizationCreate, hr]
  · intro hc h
    have hr := Retry_run _ _ _ _ _ _ _ _ w _ _ _ h
    rw [finalError_needRetry env err h.2.2.1] at hr
    simp only [resourceAlicloudBrainIndustrialPidOrganizationUpdate, hc, hr, if_true]
  · intro h
    have hr := Retry_run _ _ _ _ _ _ _ _ w _ _ _ h
    rw [finalError_needRetry env err h.2.2.1] at hr
    simp only [resourceAlicloudBrainIndustrialPidOrganizationDelete, hr]
  · intro maps v hm hv h
    have hr := Retry_run _ _ _ _ _ _ _ _ w _ _ _ h
    rw [finalError_needRetry env err h.2.2.1] at hr
    simp only [resourceAlicloudConfigAggregatorCreate, hm, hv, hr]
  · intro maps v hm hv hf h
    have hr := Retry_run _ _ _ _ _ _ _ _ w _ _ _ h
    rw [finalError_needRetry env err h.2.2.1] at hr
    simp only [resourceAlicloudConfigAggregatorUpdate, hm, hv, hf, hr, if_true]
  · intro h hexp
    have hr := Retry_run _ _ _ _ _ _ _ _ w _ _ _ h
    rw [finalError_needRetry env err h.2.2.1] at hr
    simp [resourceAlicloudConfigAggregatorDelete, hr, hexp]
  · intro request hreq h
    have hr := Retry_run _ _ _ _ _ _ _ _ w _ _ _ h
    rw [finalError_create env err h.2.2.1] at hr
    simp only [resourceAlicloudDBReadWriteSplittingConnectionCreate, hreq, hr]
  · intro request s0 hnew hreq hf hwait h
    have hr := Retry_run _ _ _ _ _ _ _ _
      { remote := s0, log := w.log ++ [Call.wait "DBInstance" d.Id env.Running (60 * 60)] }
      _ _ _ h
    rw [finalError_update env err h.2.2.1] at hr
    simp only [Bool.and_eq_false_imp, Bool.not_eq_true'] at hnew
    have hcond : ¬ (d.HasChange "max_delay_time" = false ∧ d.IsNewResource = true) := by
      rintro ⟨a, b⟩
      rw [hnew a] at b
      cases b
    simp [resourceAlicloudDBReadWriteSplittingConnectionUpdate, hcond, hreq, hf, waitCall, hwait,
      hr]
  · intro h hgone
    have hr := Retry_run _ _ _ _ _ _ _ _ w _ _ _ h
    rw [finalError_delete env err h.2.2.1 hgone] at hr
    simp only [resourceAlicloudDBReadWriteSplittingConnectionDelete, hr]

/-- Instance of `retry_stops_at_final_answer`: Update of the PID organization
`org-1` whose call is answered `Throttling`, then `Forbidden`. -/
theorem retry_stops_at_final_answer_witness :
    resourceAlicloudBrainIndustrialPidOrganizationUpdate (scriptEnv (Except.ok []) none)
        (sampleData "org-1" [("pid_organization_name", Val.str "X")] ["pid_organization_name"])
        (World.start [Except.error (GoError.sdk "Throttling" ""),
          Except.error (GoError.sdk "Forbidden" ""), Except.ok []]) =
      Result.fail (WrapErrorf (GoError.sdk "Forbidden" "") DefaultErrorMsg
        ["org-1", "UpdatePidOrganization", AlibabaCloudSdkGoERROR])
        (sampleData "org-1" [("pid_organization_name", Val.str "X")] ["pid_organization_name"])
        { remote := [Except.ok []],
          log := [] ++ List.replicate 2
            (Call.rpc "brain-industrial" "2020-09-20" "UpdatePidOrganization"
              (pidOrganizationUpdateRequest
                (sampleData "org-1" [("pid_organization_name", Val.str "X")]
                  ["pid_organization_name"]))) } :=
  (retry_stops_at_final_answer (scriptEnv (Except.ok []) none)
    (sampleData "org-1" [("pid_organization_name", Val.str "X")] ["pid_organization_name"])
    (World.start [Except.error (GoError.sdk "Throttling" ""),
      Except.error (GoError.sdk "Forbidden" ""), Except.ok []])
    [Except.error (GoError.sdk "Throttling" "")] (GoError.sdk "Forbidden" "")
    [Except.ok []]).2.2.1 (by decide) ⟨by decide, by decide, by decide, rfl⟩

/-- C8 (as stated) fails: the release call of Delete of the connection `rm-1`
is answered with a not-found error, which is not retried, and Delete returns
nil instead of an error that wraps it; so does Delete of the aggregator `ca-1`
on `AccountNotExisted`. -/
theorem delete_returns_nil_on_final_error :
    goneEnv.NeedRetry (GoError.sdk "InvalidDBInstanceId.NotFound" "") = false ∧
    goneEnv.IsExpectedErrors (GoError.sdk "InvalidDBInstanceId.NotFound" "")
      goneEnv.OperationDeniedDBStatus = false ∧
    (resourceAlicloudDBReadWriteSplittingConnectionDelete goneEnv (sampleData "rm-1" [] [])
      (World.start [Except.error (GoError.sdk "InvalidDBInstanceId.NotFound" "")])).sentActions
      = ["ReleaseReadWriteSplittingConnection"] ∧
    (resourceAlicloudDBReadWriteSplittingConnectionDelete goneEnv (sampleData "rm-1" [] [])
      (World.start [Except.error (GoError.sdk "InvalidDBInstanceId.NotFound" "")])).err = none ∧
    (resourceAlicloudDBReadWriteSplittingConnectionDelete goneEnv (sampleData "rm-1" [] [])
      (World.start [Except.error (GoError.sdk "InvalidDBInstanceId.NotFound" "")])).isOk = true ∧
    goneEnv.NeedRetry (GoError.sdk "AccountNotExisted" "") = false ∧
    (resourceAlicloudConfigAggregatorDelete goneEnv (sampleData "ca-1" [] [])
      (World.start [Except.error (GoError.sdk "AccountNotExisted" "")])).isOk = true := by
  refine ⟨by decide, by decide, by decide, by decide, by decide, by decide, by decide⟩

/-! ## Bounds of the weight merge -/

theorem mem_mapKeys_iff (m : Obj) (k : String) :
    k ∈ mapKeys m ↔ (mapGet m k).isSome = true := by
  induction m with
  | nil => simp [mapKeys, mapGet]
  | cons p rest ih =>
    obtain ⟨j, v⟩ := p
    by_cases h : j = k
    · simp [mapKeys, mapGet, h]
    · have h1 : ¬ k = j := fun e => h e.symm
      simp only [mapKeys, List.map_cons, List.mem_cons, h1, false_or, mapGet, h, if_false]
      exact ih

/-- The merge never adds a key. -/
theorem merge_absent (entries : List Val) (id : String) :
    ∀ documented merged : Obj, mapGet documented id = none →
      mergeDBInstanceWeights documented entries = some merged →
      mapGet merged id = none := by
  induction entries with
  | nil =>
    intro documented merged hd h
    simp [mergeDBInstanceWeights] at h
    rw [← h]
    exact hd
  | cons e rest ih =>
    intro documented merged hd h
    cases e with
    | obj config =>
      cases hc : mapGet config "DBInstanceId" with
      | none =>
        rw [mergeDBInstanceWeights] at h
        simp [hc] at h
        exact ih _ _ hd h.2.2
      | some v =>
        cases v with
        | str j =>
          rw [merge_cons documented config rest j hc] at h
          refine ih _ merged ?_ h
          split
          · by_cases hj : j = id
            · rw [hj]; exact mapGet_mapDelete_self _ _
            · rw [mapGet_mapDelete_ne _ _ _ hj]; exact hd
          · split
            · split
              · rename_i x hx
                by_cases hj : j = id
                · rw [hj, hd] at hx
                  cases hx
                · rw [mapSetI, mapGet_mapSet_ne _ _ _ _ hj]; exact hd
              · exact hd
            · exact hd
        | _ =>
          rw [mergeDBInstanceWeights] at h
          simp [hc] at h
          exact ih _ _ hd h.2.2
    | _ => simp [mergeDBInstanceWeights] at h

/-- In a list with distinct IDs, the elements before and after a reported
instance omit its ID. -/
theorem distinctIds_split (entries : List Val) (config : Obj) (id : String)
    (hdist : distinctIds entries) (hmem : Val.obj config ∈ entries)
    (hid : mapGet config "DBInstanceId" = some (Val.str id)) :
    ∃ pre post, entries = pre ++ Val.obj config :: post ∧ omitsId pre id ∧ omitsId post id := by
  obtain ⟨pre, post, he⟩ := List.append_of_mem hmem
  have hent : entryId (Val.obj config) = some id := by simp [entryId, hid]
  unfold distinctIds at hdist
  rw [he, List.pairwise_append, List.pairwise_cons] at hdist
  obtain ⟨_, ⟨hpost, _⟩, hpre⟩ := hdist
  refine ⟨pre, post, he, ?_, ?_⟩
  · intro x hx
    have := hpre x hx (Val.obj config) (List.mem_cons_self _ _)
    rw [hent] at this
    exact this
  · intro y hy
    have := hpost y hy
    rw [hent] at this
    exact fun h => this h.symm

/-- A list that does not omit an ID has a map element that carries it. -/
theorem reported_of_not_omits (entries : List Val) (id : String) (h : ¬ omitsId entries id) :
    ∃ config, Val.obj config ∈ entries ∧ mapGet config "DBInstanceId" = some (Val.str id) := by
  unfold omitsId at h
  simp only [ne_eq, not_forall, Classical.not_not] at h
  obtain ⟨e, he, hid⟩ := h
  cases e with
  | obj config => exact ⟨config, he, entryId_obj config id hid⟩
  | _ => simp [entryId] at hid

/-- The bounds of the merge on a well-formed list with distinct IDs. -/
theorem merge_bounds (documented merged : Obj) (entries : List Val)
    (hdist : distinctIds entries)
    (hm : mergeDBInstanceWeights documented entries = some merged) :
    (∀ id, id ∈ mapKeys merged → id ∈ mapKeys documented) ∧
    (∀ config id, Val.obj config ∈ entries →
      mapGet config "DBInstanceId" = some (Val.str id) →
      (isStr (mapGet config "Availability") "Available" = false → mapGet merged id = none) ∧
      (isStr (mapGet config "Availability") "Available" = true →
        isStr (mapGet config "Weight") "0" = true →
        mapGet merged id = mapGet documented id)) ∧
    (∀ id v, mapGet merged id = some v →
      mapGet documented id = some v ∨
      ∃ config, Val.obj config ∈ entries ∧
        mapGet config "DBInstanceId" = some (Val.str id) ∧
        isStr (mapGet config "Availability") "Available" = true ∧
        isStr (mapGet config "Weight") "0" = false ∧
        v = (mapGet config "Weight").getD Val.null) := by
  refine ⟨?_, ?_, ?_⟩
  · intro id hmem
    rw [mem_mapKeys_iff] at hmem ⊢
    cases hd : mapGet documented id with
    | none =>
      rw [merge_absent entries id documented merged hd hm] at hmem
      cases hmem
    | some v => rfl
  · intro config id hmem hid
    obtain ⟨pre, post, he, hpre, hpost⟩ := distinctIds_split entries config id hdist hmem hid
    rw [he] at hm
    have h := merge_reported pre post config id documented merged hpre hpost hid hm
    exact ⟨h.1, h.2.2.1⟩
  · intro id v hv
    by_cases hom : omitsId entries id
    · left
      rw [← merge_omits entries id documented merged hom hm]
      exact hv
    · obtain ⟨config, hmem, hid⟩ := reported_of_not_omits entries id hom
      obtain ⟨pre, post, he, hpre, hpost⟩ := distinctIds_split entries config id hdist hmem hid
      rw [he] at hm
      have h := merge_reported pre post config id documented merged hpre hpost hid hm
      cases ha : isStr (mapGet config "Availability") "Available" with
      | false =>
        rw [h.1 ha] at hv
        cases hv
      | true =>
        cases hw : isStr (mapGet config "Weight") "0" with
        | true =>
          left
          rw [← h.2.2.1 ha hw]
          exact hv
        | false =>
          cases hd : mapGet documented id with
          | none =>
            rw [h.2.2.2 hd] at hv
            cases hv
          | some x =>
            right
            have hs := h.2.1 ha hw (by rw [hd]; rfl)
            rw [hs] at hv
            injection hv with hv
            exact ⟨config, hmem, hid, ha, hw, hv.symm⟩

/-- C11: in Read of the read-write-splitting connection, with a declared
weight map and a server list of maps with distinct string IDs, Read returns
nil and writes a merged map under `weight` whose keys are keys of the declared
map; an instance reported with an Availability other than `Available` is
absent from it; an instance reported `Available` with the weight `"0"` has
what the declared map has for it; and every key it retains holds its declared
weight or the weight the server reports for it. -/
theorem readWriteSplittingRead_weight_bounds {ρ : Type} (env : Env ρ) (d : ResourceData)
    (w : World ρ) (r1 r2 : ρ) (object documented : Obj) (entries : List Val) (cs : String)
    (hwait : env.WaitForDBReadWriteSplitting d.Id "" env.DefaultLongTimeout w.remote = (none, r1))
    (hdesc : env.DescribeDBReadWriteSplittingConnection d.Id r1 = (Except.ok object, r2))
    (hport : stringOrNil object "Port") (hmdt : stringOrNil object "MaxDelayTime")
    (hcs : mapGet object "ConnectionString" = some (Val.str cs))
    (hw : d.GetOk "weight" = some (Val.obj documented))
    (hl : dBInstanceWeightsOf object = some entries)
    (hwf : wellFormedEntries entries) (hdist : distinctIds entries) :
    ∃ d1 w1 merged,
      resourceAlicloudDBReadWriteSplittingConnectionRead env d w = Result.ok d1 w1 ∧
      mergeDBInstanceWeights documented entries = some merged ∧
      mapGet d1.vals "weight" = some (Val.obj merged) ∧
      (∀ id, id ∈ mapKeys merged → id ∈ mapKeys documented) ∧
      (∀ config id, Val.obj config ∈ entries →
        mapGet config "DBInstanceId" = some (Val.str id) →
        (isStr (mapGet config "Availability") "Available" = false → mapGet merged id = none) ∧
        (isStr (mapGet config "Availability") "Available" = true →
          isStr (mapGet config "Weight") "0" = true →
          mapGet merged id = mapGet documented id)) ∧
      (∀ id v, mapGet merged id = some v →
        mapGet documented id = some v ∨
        ∃ config, Val.obj config ∈ entries ∧
          mapGet config "DBInstanceId" = some (Val.str id) ∧
          isStr (mapGet config "Availability") "Available" = true ∧
          isStr (mapGet config "Weight") "0" = false ∧
          v = (mapGet config "Weight").getD Val.null) := by
  obtain ⟨d1, merged, hobj, hm, hget⟩ :=
    readObject_weight env d object documented entries cs hport hmdt hcs hw hl hwf
  obtain ⟨h1, h2, h3⟩ := merge_bounds documented merged entries hdist hm
  exact ⟨d1, _, merged, readWriteSplittingRead_ok env d d1 w r1 r2 object hwait hdesc hobj,
    hm, hget, h1, h2, h3⟩

/-- Instance of `readWriteSplittingRead_weight_bounds` on `sampleConnectionData`:
the merged map holds the declared weight of `a` and the server's weight of
`b`, and `c`, reported unavailable, is absent. -/
theorem readWriteSplittingRead_weight_bounds_witness :
    ∃ d1 w1 merged,
      resourceAlicloudDBReadWriteSplittingConnectionRead sampleConnectionEnv
        sampleConnectionData (World.start []) = Result.ok d1 w1 ∧
      mergeDBInstanceWeights sampleWeights sampleEntries = some merged ∧
      mapGet d1.vals "weight" = some (Val.obj merged) ∧
      (∀ id, id ∈ mapKeys merged → id ∈ mapKeys sampleWeights) ∧
      (∀ config id, Val.obj config ∈ sampleEntries →
        mapGet config "DBInstanceId" = some (Val.str id) →
        (isStr (mapGet config "Availability") "Available" = false → mapGet merged id = none) ∧
        (isStr (mapGet config "Availability") "Available" = true →
          isStr (mapGet config "Weight") "0" = true →
          mapGet merged id = mapGet sampleWeights id)) ∧
      (∀ id v, mapGet merged id = some v →
        mapGet sampleWeights id = some v ∨
        ∃ config, Val.obj config ∈ sampleEntries ∧
          mapGet config "DBInstanceId" = some (Val.str id) ∧
          isStr (mapGet config "Availability") "Available" = true ∧
          isStr (mapGet config "Weight") "0" = false ∧
          v = (mapGet config "Weight").getD Val.null) :=
  readWriteSplittingRead_weight_bounds sampleConnectionEnv sampleConnectionData (World.start [])
    [] [] (sampleConnection "pfx-1.rw.rds.aliyuncs.com" sampleEntries) sampleWeights
    sampleEntries "pfx-1.rw.rds.aliyuncs.com" rfl rfl
    (Or.inr (Or.inr ⟨"3306", rfl⟩)) (Or.inr (Or.inr ⟨"30", rfl⟩)) rfl rfl rfl
    (by decide) (by decide)

/-! ## Read on a response with absent keys -/

/-- Line 176 of Read asserts `object["ConnectionString"].(string)` without a
guard: with the key absent the mapping ends in a failed assertion, whatever
the fields before it gave. -/
theorem readObject_without_connection_string {ρ : Type} (env : Env ρ) (d : ResourceData)
    (object : Obj) (hcs : mapGet object "ConnectionString" = none) :
    readObject env d object = none := by
  unfold readObject
  cases readFields d object with
  | none => rfl
  | some d3 => simp [readConnectionPfx, hcs]

/-- Read fails its type assertion on every described object without
`ConnectionString`, once the wait and the lookup succeeded. -/
theorem readWriteSplittingRead_without_connection_string {ρ : Type} (env : Env ρ)
    (d : ResourceData) (w : World ρ) (r1 r2 : ρ) (object : Obj)
    (hwait : env.WaitForDBReadWriteSplitting d.Id "" env.DefaultLongTimeout w.remote = (none, r1))
    (hdesc : env.DescribeDBReadWriteSplittingConnection d.Id r1 = (Except.ok object, r2))
    (hcs : mapGet object "ConnectionString" = none) :
    resourceAlicloudDBReadWriteSplittingConnectionRead env d w = Result.panic := by
  simp [resourceAlicloudDBReadWriteSplittingConnectionRead, waitCall, hwait, hdesc,
    readObject_without_connection_string env d object hcs]

/-- C12 (the code fails it): Read of the connection `rm-1` ends in a failed
type assertion when the describe response lacks `ConnectionString`, which
line 143 guards and line 176 asserts to be a string, and when it lacks
`DBInstanceWeights` while a weight map is declared (line 161); on the same
response with both keys Read returns nil, and without `Port` and
`MaxDelayTime` as well. -/
theorem readWriteSplittingRead_panics_on_absent_key :
    mapGet (connectionWithoutString sampleEntries) "ConnectionString" = none ∧
    (resourceAlicloudDBReadWriteSplittingConnectionRead
      (scriptEnv (Except.ok (connectionWithoutString sampleEntries)) none)
      sampleConnectionData (World.start [])).isPanic = true ∧
    mapGet (connectionWithoutWeights "pfx-1.rw.rds.aliyuncs.com") "DBInstanceWeights" = none ∧
    (resourceAlicloudDBReadWriteSplittingConnectionRead
      (scriptEnv (Except.ok (connectionWithoutWeights "pfx-1.rw.rds.aliyuncs.com")) none)
      sampleConnectionData (World.start [])).isPanic = true ∧
    (resourceAlicloudDBReadWriteSplittingConnectionRead sampleConnectionEnv
      sampleConnectionData (World.start [])).isOk = true ∧
    (resourceAlicloudDBReadWriteSplittingConnectionRead
      (scriptEnv (Except.ok
        [("ConnectionString", Val.str "pfx-1.rw.rds.aliyuncs.com"),
         ("DBInstanceWeights", Val.obj [("DBInstanceWeight", Val.list sampleEntries)])]) none)
      sampleConnectionData (World.start [])).isOk = true := by
  refine ⟨rfl, ?_, rfl, by decide, by decide, by decide⟩
  rw [readWriteSplittingRead_without_connection_string
    (scriptEnv (Except.ok (connectionWithoutString sampleEntries)) none)
    sampleConnectionData (World.start []) [] [] (connectionWithoutString sampleEntries)
    rfl rfl rfl]
  rfl

end Alicloud
